import Mathlib

/-!
# d-operators: label reconciliation and assertion dispatch

A shallow embedding of `pkg/recipe/labeling.go` (type `Labeling`) and
`pkg/job/assert.go` (type `Assertable`), followed by the properties proved
about them. The retry primitive, whose source is not at hand, is modelled from
the specification.

Conventions of the embedding:

* a Go `map[string]string` is an association list with pairwise distinct keys;
  a `nil` map and an empty map are the same value, as they are for `len`,
  indexing and `range`;
* a method with a pointer receiver becomes a function that returns the updated
  receiver next to its Go results;
* the resource store is explicit state threaded through every call that
  reaches it, and keeps a journal of the requests it has received.
-/

namespace DOperators

/-! ## Label maps -/

/-- Go `map[string]string`, the type of a label set. -/
abbrev LabelMap := AList (fun _ : String => String)

namespace LabelMap

/-- Map literal `map[string]string{k1: v1, ...}`; a later duplicate key wins. -/
def ofList (l : List (String × String)) : LabelMap :=
  l.foldl (fun m e => m.insert e.1 e.2) ∅

/-- Go `len(m)`. -/
def len (m : LabelMap) : Nat := m.entries.length

/-- Go index expression `m[k]`: the zero value `""` when the key is missing. -/
def index (m : LabelMap) (k : String) : String := (m.lookup k).getD ""

/-- Go assignment `m[k] = v`. -/
def assign (m : LabelMap) (k v : String) : LabelMap := m.insert k v

/-- The key/value pairs of the map, in the order in which the `range` loops of
the embedding visit `m.entries`. -/
def pairs (m : LabelMap) : List (String × String) := m.entries.map (fun e => (e.1, e.2))

end LabelMap

/-! ## Resources and the resource store -/

/-- The part of `unstructured.Unstructured` that the code reads or writes. -/
structure Unstructured where
  apiVersion : String
  kind : String
  nspace : String
  name : String
  labels : LabelMap

namespace Unstructured

def GetAPIVersion (u : Unstructured) : String := u.apiVersion
def GetKind (u : Unstructured) : String := u.kind
def GetNamespace (u : Unstructured) : String := u.nspace
def GetName (u : Unstructured) : String := u.name
def GetLabels (u : Unstructured) : LabelMap := u.labels
def SetLabels (u : Unstructured) (lbls : LabelMap) : Unstructured := { u with labels := lbls }

/-- The rendering of `u.GroupVersionKind()` under `%s`: group, `/`, version,
then `, Kind=` and the kind. An `apiVersion` without `/` has the empty group;
one with several `/` does not parse, and the method then returns the empty
value, kind included. -/
def GroupVersionKind (u : Unstructured) : String :=
  let n := u.apiVersion.toList.count '/'
  if n = 1 then u.apiVersion ++ ", Kind=" ++ u.kind
  else if n = 0 then "/" ++ u.apiVersion ++ ", Kind=" ++ u.kind
  else "/, Kind="

/-- Two documents name the same stored resource. -/
def sameResource (u v : Unstructured) : Bool :=
  u.apiVersion == v.apiVersion && u.kind == v.kind && u.nspace == v.nspace && u.name == v.name

end Unstructured

/-- A request received by the resource store. -/
inductive StoreCall where
  | getClient (apiVersion kind : String)
  | list (apiVersion kind nspace : String) (selector : List (String × String))
  | update (nspace : String) (obj : Unstructured)

/-- Errors of the two packages. -/
inductive Err where
  /-- the store rejected the request (conflict, unreachable, ...) -/
  | storeFault (call : StoreCall)
  /-- the store holds no resource with the identity of the updated document -/
  | notFound (nspace name : String)
  /-- the result of `errors.Wrapf(cause, msg)` -/
  | wrapf (cause : Err) (msg : String)
  /-- the retry loop gave up -/
  | retryTimeout (msg : String) (last : Option Err)
  /-- the error "Invalid label operation: Missing ApplyLabels" -/
  | missingApplyLabels
  /-- the error "Failed to run assert: Missing assert name" -/
  | missingAssertName
  /-- the error "Failed to run assert %q: Nil assert state" -/
  | nilAssertState (name : String)
  /-- the error "Failed to assert %q: More than one assert checks found" -/
  | moreThanOneCheck (name : String)
  /-- the error "Failed to run assert %q: Invalid operator %q" -/
  | invalidOperator (name : String) (checkType : Nat)
  /-- an error returned by a path or state checker -/
  | checker (code : Nat)

/-- Modelled from the spec: the resource store of §6, an external collaborator
(`BaseRunner` and the dynamic client are not part of the sources). `items` are
the stored documents, `faults` scripts the outcome of the coming requests in
order (`true`: the store rejects that request; an exhausted script accepts),
and `calls` is the journal of the requests received so far, oldest first. -/
structure Cluster where
  items : List Unstructured
  faults : List Bool
  calls : List StoreCall

/-- Handle returned by `GetClientForAPIVersionAndKind`: the resource type served. -/
structure ResourceClient where
  apiVersion : String
  kind : String

namespace Cluster

/-- The store receives `req`: it is journalled and consumes one entry of the
fault script. The flag tells whether the store rejects the request. -/
def receive (c : Cluster) (req : StoreCall) : Cluster × Bool :=
  ({ c with calls := c.calls ++ [req], faults := c.faults.tail }, c.faults.headD false)

/-- Modelled from the spec: `GetClientFor(type descriptor) -> (ResourceClient, error)`. -/
def GetClientForAPIVersionAndKind (c : Cluster) (apiVersion kind : String) :
    Cluster × Except Err ResourceClient :=
  let r := c.receive (.getClient apiVersion kind)
  if r.2 then (r.1, .error (.storeFault (.getClient apiVersion kind)))
  else (r.1, .ok { apiVersion := apiVersion, kind := kind })

end Cluster

namespace ResourceClient

/-- The label selector `labels.Set(sel).String()` selects a document that
carries every pair of `sel`. -/
def selects (sel : LabelMap) (o : Unstructured) : Bool :=
  sel.entries.all (fun e => o.labels.lookup e.1 == some e.2)

/-- Modelled from the spec: `ResourceClient.List(namespace, labelSelector)`.
The empty namespace lists every namespace. -/
def List (client : ResourceClient) (nspace : String) (sel : LabelMap) (c : Cluster) :
    Cluster × Except Err (List Unstructured) :=
  let req := StoreCall.list client.apiVersion client.kind nspace sel.pairs
  let r := c.receive req
  if r.2 then (r.1, .error (.storeFault req))
  else (r.1, .ok (r.1.items.filter (fun o =>
    o.apiVersion == client.apiVersion && o.kind == client.kind &&
      (nspace == "" || o.nspace == nspace) && selects sel o)))

/-- Modelled from the spec: `ResourceClient.Update(doc, options)`, called as
`client.Namespace(ns).Update(obj, metav1.UpdateOptions{})`. An accepted update
replaces the stored document of the same identity. -/
def Update (_client : ResourceClient) (nspace : String) (obj : Unstructured) (c : Cluster) :
    Cluster × Option Err :=
  let req := StoreCall.update nspace obj
  let r := c.receive req
  if r.2 then (r.1, some (.storeFault req))
  else if r.1.items.any (fun o => o.sameResource obj) then
    ({ r.1 with items := r.1.items.map (fun o => if o.sameResource obj then obj else o) }, none)
  else (r.1, some (.notFound nspace obj.name))

end ResourceClient

/-- The documents a store holds after it has received `calls`, answered as
`faults` scripts, when it held `items` before: an `Update` that the store does
not reject replaces the documents of its identity, in the order of the
requests, and no other request changes a document. -/
def Cluster.replay : List Unstructured → List Bool → List StoreCall → List Unstructured
  | items, _, [] => items
  | items, faults, call :: rest =>
    let items1 :=
      match call with
      | .update _ obj =>
        if faults.headD false then items
        else items.map (fun o => if o.sameResource obj then obj else o)
      | _ => items
    Cluster.replay items1 faults.tail rest

/-- Modelled from the spec: `types.Label` (LabelSpec of §3), whose declaration
is not part of the sources; the fields are the ones `labeling.go` reads. -/
structure Label where
  State : Unstructured
  ApplyLabels : LabelMap
  IncludeByNames : List String
  AutoUnset : Bool

/-- Modelled from the spec: `types.LabelResult`, the `{Phase, Message, Verbose}`
result of §3. -/
structure LabelResult where
  Phase : String
  Message : String
  Verbose : String

/-- Modelled from the spec: the constant `types.LabelStatusPassed` (Phase=Passed). -/
def LabelStatusPassed : String := "Passed"

/-- The struct `Labeling`. The embedded `BaseRunner` is the store, passed
separately. The three counters are Go `int`s that start at zero and grow by at
most one per store request, so they are kept as natural numbers. -/
structure Labeling where
  Label : Label
  result : Option LabelResult
  err : Option Err
  totalFoundCount : Nat
  labeledCount : Nat
  unLabeledCount : Nat

/-- The struct `LabelingConfig`, without its `BaseRunner`. -/
structure LabelingConfig where
  Label : Label

/-- What a per-resource method leaves behind: the receiver, the store, the
document behind the `obj` pointer, and the returned `error`. -/
structure Step where
  l : Labeling
  cluster : Cluster
  obj : Unstructured
  err : Option Err

namespace Labeling

/-- Constructor `NewLabeler`. -/
def NewLabeler (config : LabelingConfig) : Labeling :=
  { Label := config.Label, result := some { Phase := "", Message := "", Verbose := "" },
    err := none, totalFoundCount := 0, labeledCount := 0, unLabeledCount := 0 }

/-- Method `verboseMessage`. -/
def verboseMessage (l : Labeling) : String :=
  "Resource labeling: Found " ++ toString l.totalFoundCount ++
    ": Labeled " ++ toString l.labeledCount ++
    ": UnLabeled " ++ toString l.unLabeledCount

/-- The loop of `unset` that rebuilds the label map: every current pair whose
key is no key of `ApplyLabels` is copied into `newLbls`. -/
def unsetCopy (applyLabels : LabelMap) (current : List (Sigma fun _ : String => String))
    (newLbls : LabelMap) : LabelMap :=
  match current with
  | [] => newLbls
  | ⟨key, val⟩ :: rest =>
    let isUnset := applyLabels.keys.any (fun applyKey => key == applyKey)
    if !isUnset then unsetCopy applyLabels rest (newLbls.assign key val)
    else unsetCopy applyLabels rest newLbls

/-- Method `unset`. -/
def unset (l : Labeling) (client : ResourceClient) (obj : Unstructured) (c : Cluster) : Step :=
  let currentLbls := obj.GetLabels
  if currentLbls.len = 0 ∨ currentLbls.len < l.Label.ApplyLabels.len then
    { l := l, cluster := c, obj := obj, err := none }
  else if l.Label.ApplyLabels.entries.any (fun kv => currentLbls.index kv.1 != kv.2) then
    { l := l, cluster := c, obj := obj, err := none }
  else
    let newLbls := unsetCopy l.Label.ApplyLabels currentLbls.entries ∅
    let obj1 := obj.SetLabels newLbls
    let r := client.Update obj1.GetNamespace obj1 c
    match r.2 with
    | none =>
      { l := { l with unLabeledCount := l.unLabeledCount + 1 }, cluster := r.1, obj := obj1,
        err := none }
    | some e => { l := l, cluster := r.1, obj := obj1, err := some e }

/-- The two guards at the head of `unset` (labeling.go:85-98): `true` when
neither of them returns early, that is when `unset` goes on to rewrite the
labels and to call `Update`. -/
def unsetGuard (applyLabels currentLbls : LabelMap) : Bool :=
  !(decide (currentLbls.len = 0 ∨ currentLbls.len < applyLabels.len)) &&
    !(applyLabels.entries.any (fun kv => currentLbls.index kv.1 != kv.2))

/-- A `for k, v := range src { dst[k] = v }` loop. -/
def copyInto (src : List (Sigma fun _ : String => String)) (dst : LabelMap) : LabelMap :=
  match src with
  | [] => dst
  | ⟨key, val⟩ :: rest => copyInto rest (dst.assign key val)

/-- Method `label`. -/
def label (l : Labeling) (client : ResourceClient) (obj : Unstructured) (c : Cluster) : Step :=
  let newLbls0 := copyInto obj.GetLabels.entries ∅
  let newLbls := copyInto l.Label.ApplyLabels.entries newLbls0
  let obj1 := obj.SetLabels newLbls
  let r := client.Update obj1.GetNamespace obj1 c
  match r.2 with
  | none =>
    { l := { l with labeledCount := l.labeledCount + 1 }, cluster := r.1, obj := obj1,
      err := none }
  | some e => { l := l, cluster := r.1, obj := obj1, err := some e }

/-- The loop of `labelOrUnset` over `IncludeByNames`, with its `break`. -/
def includeLoop (names : List String) (objName : String) (isInclude : Bool) : Bool :=
  match names with
  | [] => isInclude
  | name :: rest => if name == objName then true else includeLoop rest objName isInclude

/-- Method `labelOrUnset`. -/
def labelOrUnset (l : Labeling) (client : ResourceClient) (obj : Unstructured) (c : Cluster) :
    Step :=
  let isInclude0 := if l.Label.IncludeByNames.length = 0 then true else false
  let isInclude := includeLoop l.Label.IncludeByNames obj.GetName isInclude0
  if isInclude then l.label client obj c
  else if !isInclude && l.Label.AutoUnset then l.unset client obj c
  else { l := l, cluster := c, obj := obj, err := none }

end Labeling

/-- One attempt of the retry loop: what the closure handed to `Waitf` returns,
next to the receiver and the store it leaves behind. -/
abbrev Attempt := Labeling × Cluster → (Labeling × Cluster) × Bool × Option Err

/-- The signature of `Retryable.Waitf`, which is not part of the sources: it
drives an attempt, under a message, from a starting state to a final state and
the error it gives up with (`none` for `nil`). -/
abbrev Waitf := Attempt → String → Labeling × Cluster → (Labeling × Cluster) × Option Err

namespace Labeling

/-- The `for _, obj := range items.Items` loop of `labelAll`, which returns at
the first item whose `labelOrUnset` fails. -/
def labelItems (l : Labeling) (client : ResourceClient) (items : List Unstructured)
    (c : Cluster) : Labeling × Cluster × Option Err :=
  match items with
  | [] => (l, c, none)
  | obj :: rest =>
    let s := l.labelOrUnset client obj c
    match s.err with
    | some e => (s.l, s.cluster, some e)
    | none => labelItems s.l client rest s.cluster

/-- The closure that `labelAll` hands to `Waitf`. -/
def labelAllAttempt : Attempt := fun st =>
  let l := st.1
  let r := st.2.GetClientForAPIVersionAndKind l.Label.State.GetAPIVersion l.Label.State.GetKind
  match r.2 with
  | .error e => ((l, r.1), false, some (.wrapf e "Failed to get resource client"))
  | .ok client =>
    let r2 := client.List l.Label.State.GetNamespace l.Label.State.GetLabels r.1
    match r2.2 with
    | .error e => ((l, r2.1), false, some (.wrapf e "Failed to list resources"))
    | .ok items =>
      let l1 := { l with totalFoundCount := items.length }
      let done := labelItems l1 client items r2.1
      match done.2.2 with
      | some e => ((done.1, done.2.1), false, some e)
      | none => ((done.1, done.2.1), true, none)

/-- Method `labelAll`, over the retry primitive `waitf`. -/
def labelAll (waitf : Waitf) (l : Labeling) (c : Cluster) :
    (Labeling × Cluster) × Option LabelResult × Option Err :=
  let message := "Label resource " ++ l.Label.State.GetNamespace ++ " " ++
    l.Label.State.GetName ++ ": GVK " ++ l.Label.State.GroupVersionKind
  let r := waitf labelAllAttempt message (l, c)
  match r.2 with
  | some e => (r.1, none, some e)
  | none =>
    (r.1, some { Phase := LabelStatusPassed, Message := message,
                 Verbose := r.1.1.verboseMessage }, none)

/-- Method `Run`. -/
def Run (waitf : Waitf) (l : Labeling) (c : Cluster) :
    (Labeling × Cluster) × Option LabelResult × Option Err :=
  if l.Label.ApplyLabels.len = 0 then ((l, c), none, some .missingApplyLabels)
  else l.labelAll waitf c

end Labeling

/-! ## Accepted writes -/

/-- Modelled from the spec: the RetryPolicy of §3 and §4.1 (`Retryable`, which
is not part of the sources). Interval and timeout are real time; the loop
depends on them only through the number of invocations that fit before the
timeout elapses: the first invocation always takes place (a zero timeout means
a single attempt) and `retries` further ones fit. The spec describes an attempt
that returns an error in two ways: §4.1 returns the error at once, §4.5 and §7
retry the attempt until the timeout; `retryOnError` selects the second reading. -/
structure Retryable where
  retries : Nat
  retryOnError : Bool

namespace Retryable

/-- Modelled from the spec: the loop of `Wait` (§4.1) with `n` further
invocations left after the coming one. It ends when the attempt reports done,
when it returns an error that is not retried, or on the timeout, with a timeout
error that wraps the message. -/
def loop {σ : Type} (r : Retryable) (f : σ → σ × Bool × Option Err) (msg : String) :
    Nat → σ → σ × Option Err
  | 0, st =>
    let res := f st
    match res.2.2 with
    | some e => (res.1, some (if r.retryOnError then Err.retryTimeout msg (some e) else e))
    | none => if res.2.1 then (res.1, none) else (res.1, some (Err.retryTimeout msg none))
  | n + 1, st =>
    let res := f st
    match res.2.2 with
    | some e => if r.retryOnError then loop r f msg n res.1 else (res.1, some e)
    | none => if res.2.1 then (res.1, none) else loop r f msg n res.1

/-- Modelled from the spec: `Retryable.Waitf`, the contract `Wait(f, label)` of §4.1. -/
def Waitf (r : Retryable) : DOperators.Waitf := fun f msg st => r.loop f msg r.retries st

end Retryable

/-! ## `pkg/job/assert.go` -/

/-- Modelled from the spec: `types.StateCheck`, declared outside the sources;
only the operator is set by `assert.go`, the other fields keep their zero value. -/
structure StateCheck where
  Operator : String

/-- Modelled from the spec: the constant `types.StateCheckOperatorEquals`. -/
def StateCheckOperatorEquals : String := "Equals"

/-- Modelled from the spec: `types.PathCheck` of §3, a path expression, an
operator and an expected value. -/
structure PathCheck where
  Path : String
  Operator : String
  Value : String

/-- Modelled from the spec: `types.Assert` (AssertSpec of §3); the three fields
are pointers, `none` standing for `nil`. -/
structure Assert where
  State : Option Unstructured
  StateCheck : Option StateCheck
  PathCheck : Option PathCheck

/-- Modelled from the spec: `types.AssertStatus`; the default value is the
empty status `types.AssertStatus{}`. -/
structure AssertStatus where
  Phase : String := ""
  Message : String := ""
  Verbose : String := ""
  Warning : String := ""

/-- Modelled from the spec: what a checker's `Run` returns next to its error. -/
structure CheckResult where
  Phase : String
  Message : String
  Verbose : String
  Warning : String

/-- The struct `PathCheckingConfig`, as `runAssertByPath` fills it. -/
structure PathCheckingConfig where
  Name : String
  Fixture : Nat
  State : Option Unstructured
  PathCheck : PathCheck
  Retry : Nat

/-- The struct `StateCheckingConfig`, as `runAssertByState` fills it. -/
structure StateCheckingConfig where
  Name : String
  Fixture : Nat
  State : Option Unstructured
  StateCheck : StateCheck
  Retry : Nat

/-- An invocation of one of the two checkers. -/
inductive CheckerCall where
  | path (cfg : PathCheckingConfig)
  | state (cfg : StateCheckingConfig)

/-- The declarations that `assert.go` uses and that are not part of the
sources, taken as parameters: the values of the type `types.AssertCheckType`
(its zero value and its two constants, each identified by a code), the `Run`
methods of the path checker and of the state checker, and the two
`ToAssertResultPhase` conversions. -/
structure JobDecls where
  zeroCheckType : Nat
  AssertCheckTypePath : Nat
  AssertCheckTypeState : Nat
  pathCheckerRun : PathCheckingConfig → Except Err CheckResult
  stateCheckerRun : StateCheckingConfig → Except Err CheckResult
  pathToAssertResultPhase : String → String
  stateToAssertResultPhase : String → String

/-- The struct `Assertable`; `Fixture` and `Retry` are handles that are only
passed on to the checkers. -/
structure Assertable where
  Fixture : Nat
  Retry : Nat
  Name : String
  Assert : Option Assert
  assertCheckType : Nat
  retryOnDiff : Bool
  retryOnEqual : Bool
  status : Option AssertStatus
  err : Option Err

/-- The struct `AssertableConfig`. -/
structure AssertableConfig where
  Fixture : Nat
  Retry : Nat
  Name : String
  Assert : Option Assert

/-- The receiver together with the checker invocations made so far (oldest
first). A method that dereferences `nil` yields `none`. -/
abbrev AssertState := Assertable × List CheckerCall

/-- What `Assertable.Run` returns, next to the receiver it leaves behind and
the checker invocations it made. -/
structure RunResult where
  a : Assertable
  invoked : List CheckerCall
  status : AssertStatus
  err : Option Err

namespace Assertable

/-- Constructor `NewAsserter`; the unexported fields it does not mention have
their zero value. -/
def NewAsserter (d : JobDecls) (config : AssertableConfig) : Assertable :=
  { Fixture := config.Fixture, Retry := config.Retry, Name := config.Name,
    Assert := config.Assert, assertCheckType := d.zeroCheckType, retryOnDiff := false,
    retryOnEqual := false, status := some {}, err := none }

/-- Method `init`. -/
def init (d : JobDecls) (st : AssertState) : Option AssertState :=
  let a := st.1
  match a.Assert with
  | none => none
  | some asrt =>
    let checks0 : Nat := 0
    let s1 : Nat × Assertable :=
      if asrt.PathCheck.isSome then
        (checks0 + 1, { a with assertCheckType := d.AssertCheckTypePath })
      else (checks0, a)
    let s2 : Nat × Assertable :=
      if asrt.StateCheck.isSome then
        (s1.1 + 1, { s1.2 with assertCheckType := d.AssertCheckTypeState })
      else s1
    if s2.1 > 1 then
      some ({ s2.2 with err := some (.moreThanOneCheck a.Name) }, st.2)
    else if s2.1 = 0 then
      some ({ s2.2 with
        Assert := some { asrt with StateCheck := some { Operator := StateCheckOperatorEquals } } },
        st.2)
    else some (s2.2, st.2)

/-- Method `runAssertByPath`. -/
def runAssertByPath (d : JobDecls) (st : AssertState) : Option AssertState :=
  let a := st.1
  match a.Assert with
  | none => none
  | some asrt =>
    match asrt.PathCheck with
    | none => none
    | some pc =>
      let cfg : PathCheckingConfig :=
        { Name := a.Name, Fixture := a.Fixture, State := asrt.State, PathCheck := pc,
          Retry := a.Retry }
      match d.pathCheckerRun cfg with
      | .error e => some ({ a with err := some e }, st.2 ++ [.path cfg])
      | .ok got =>
        let status : AssertStatus :=
          { Phase := d.pathToAssertResultPhase got.Phase, Message := got.Message,
            Verbose := got.Verbose, Warning := got.Warning }
        some ({ a with status := some status }, st.2 ++ [.path cfg])

/-- Method `runAssertByState`. -/
def runAssertByState (d : JobDecls) (st : AssertState) : Option AssertState :=
  let a := st.1
  match a.Assert with
  | none => none
  | some asrt =>
    match asrt.StateCheck with
    | none => none
    | some sc =>
      let cfg : StateCheckingConfig :=
        { Name := a.Name, Fixture := a.Fixture, State := asrt.State, StateCheck := sc,
          Retry := a.Retry }
      match d.stateCheckerRun cfg with
      | .error e => some ({ a with err := some e }, st.2 ++ [.state cfg])
      | .ok got =>
        let status : AssertStatus :=
          { Phase := d.stateToAssertResultPhase got.Phase, Message := got.Message,
            Verbose := got.Verbose, Warning := got.Warning }
        some ({ a with status := some status }, st.2 ++ [.state cfg])

/-- Method `runAssert`. -/
def runAssert (d : JobDecls) (st : AssertState) : Option AssertState :=
  if st.1.assertCheckType = d.AssertCheckTypePath then runAssertByPath d st
  else if st.1.assertCheckType = d.AssertCheckTypeState then runAssertByState d st
  else some ({ st.1 with err := some (.invalidOperator st.1.Name st.1.assertCheckType) }, st.2)

/-- The loop `for _, fn := range fns` of `Run` and the return that follows it. -/
def runFns (fns : List (AssertState → Option AssertState)) (st : AssertState) :
    Option RunResult :=
  match fns with
  | [] =>
    match st.1.status with
    | none => none
    | some status => some { a := st.1, invoked := st.2, status := status, err := none }
  | fn :: rest =>
    match fn st with
    | none => none
    | some st1 =>
      match st1.1.err with
      | some e => some { a := st1.1, invoked := st1.2, status := {}, err := some e }
      | none => runFns rest st1

/-- Method `Run`. -/
def Run (d : JobDecls) (a : Assertable) : Option RunResult :=
  if a.Name = "" then
    some { a := a, invoked := [], status := {}, err := some .missingAssertName }
  else if a.Assert.isNone || (a.Assert.bind (fun asrt => asrt.State)).isNone then
    some { a := a, invoked := [], status := {}, err := some (.nilAssertState a.Name) }
  else runFns [init d, runAssert d] (a, [])

end Assertable

/-! ## Concrete inputs -/

namespace Examples

/-- A client for the core `Pod` type. -/
def client : ResourceClient := { apiVersion := "v1", kind := "Pod" }

/-- A pod of namespace `ns` with the given name and labels. -/
def pod (name : String) (lbls : List (String × String)) : Unstructured :=
  { apiVersion := "v1", kind := "Pod", nspace := "ns", name := name,
    labels := LabelMap.ofList lbls }

/-- A fresh labeler for the pods of namespace `ns`. -/
def labeler (apply : List (String × String)) (names : List String) (autoUnset : Bool) :
    Labeling :=
  Labeling.NewLabeler
    { Label := { State := pod "" [], ApplyLabels := LabelMap.ofList apply,
                 IncludeByNames := names, AutoUnset := autoUnset } }

/-- A store that holds `items`, has received no request yet and answers the
coming requests as `faults` scripts. -/
def cluster (items : List Unstructured) (faults : List Bool) : Cluster :=
  { items := items, faults := faults, calls := [] }

/-- The labels of the stored documents, one list of pairs per document. -/
def storedLabels (c : Cluster) : List (List (String × String)) :=
  c.items.map (fun o => o.labels.pairs)

/-- `ApplyLabels` is `{a: "", b: "1"}`; the pod `r` is not included, carries
`b=1` and `c=3` and has no label `a`. -/
def emptyValueUnset : Step :=
  (labeler [("a", ""), ("b", "1")] ["other"] true).labelOrUnset client
    (pod "r" [("b", "1"), ("c", "3")]) (cluster [pod "r" [("b", "1"), ("c", "3")]] [])

/-- A pod labeled `{a: "9"}` is labeled with `ApplyLabels = {a: "1"}`; the
store accepts every request. -/
def overwriteLabel : Step :=
  (labeler [("a", "1")] [] true).label client (pod "r" [("a", "9")])
    (cluster [pod "r" [("a", "9")]] [])

/-- The pod left by `overwriteLabel` is unset. -/
def overwriteUnset : Step :=
  overwriteLabel.l.unset client overwriteLabel.obj overwriteLabel.cluster

/-- Two pods without labels in a store that accepts the client lookup, the
list and the first update, rejects the second update and accepts what follows. -/
def twoPods : Cluster :=
  cluster [pod "p1" [], pod "p2" []] [false, false, false, true]

/-- A fresh labeler of `{a: "1"}` that includes every resource runs over
`twoPods` under a policy whose timeout leaves room for a single attempt. -/
def failedRun (retryOnError : Bool) : (Labeling × Cluster) × Option LabelResult × Option Err :=
  (labeler [("a", "1")] [] false).Run
    (Retryable.Waitf { retries := 0, retryOnError := retryOnError }) twoPods

/-- The first attempt of that labeler over `twoPods`. -/
def firstAttempt : (Labeling × Cluster) × Bool × Option Err :=
  Labeling.labelAllAttempt (labeler [("a", "1")] [] false, twoPods)

/-- The attempt that follows `firstAttempt`, from scratch. -/
def secondAttempt : (Labeling × Cluster) × Bool × Option Err :=
  Labeling.labelAllAttempt firstAttempt.1

/-- The same run under a policy that retries a failed attempt once. -/
def retriedRun : (Labeling × Cluster) × Option LabelResult × Option Err :=
  (labeler [("a", "1")] [] false).Run
    (Retryable.Waitf { retries := 1, retryOnError := true }) twoPods

/-- Declarations in which `AssertCheckTypeState` is the zero value of its
type, with checkers that pass whatever they are given. -/
def decls : JobDecls :=
  { zeroCheckType := 0, AssertCheckTypeState := 0, AssertCheckTypePath := 1,
    pathCheckerRun := fun _ =>
      .ok { Phase := "Passed", Message := "path", Verbose := "", Warning := "" },
    stateCheckerRun := fun _ =>
      .ok { Phase := "Passed", Message := "state", Verbose := "", Warning := "" },
    pathToAssertResultPhase := fun p => p,
    stateToAssertResultPhase := fun p => p }

/-- An asserter named `check` over the given spec. -/
def asserter (asrt : Option Assert) : Assertable :=
  Assertable.NewAsserter decls { Fixture := 0, Retry := 0, Name := "check", Assert := asrt }

/-- The asserter `check` over a spec that has a state and no check. -/
def stateOnly : Assertable :=
  asserter (some { State := some (pod "r" []), StateCheck := none, PathCheck := none })

end Examples

/-! ## Lemmas on the loops over label maps -/

open Labeling

theorem lookup_assign_self (m : LabelMap) (k v : String) : (m.assign k v).lookup k = some v := by
  simp [LabelMap.assign]

theorem lookup_assign_ne (m : LabelMap) {k k' : String} (v : String) (h : k ≠ k') :
    (m.assign k' v).lookup k = m.lookup k := by
  simp [LabelMap.assign, AList.lookup_insert_ne h]

theorem lookup_copyInto (k : String) :
    ∀ (src : List (Sigma fun _ : String => String)) (dst : LabelMap), src.NodupKeys →
      (copyInto src dst).lookup k =
        match src.dlookup k with
        | some v => some v
        | none => dst.lookup k := by
  intro src
  induction src with
  | nil => intro dst _; simp [copyInto]
  | cons e rest ih =>
    intro dst hnd
    obtain ⟨key, val⟩ := e
    rw [List.nodupKeys_cons] at hnd
    simp only [copyInto]
    rw [ih _ hnd.2]
    by_cases hk : key = k
    · subst hk
      have : rest.dlookup key = none := List.dlookup_eq_none.mpr hnd.1
      simp [this, lookup_assign_self]
    · have hk' : k ≠ key := fun h => hk h.symm
      rw [List.dlookup_cons_ne _ _ hk', lookup_assign_ne _ _ hk']

theorem lookup_unsetCopy (A : LabelMap) (k : String) :
    ∀ (cur : List (Sigma fun _ : String => String)) (acc : LabelMap), cur.NodupKeys →
      (unsetCopy A cur acc).lookup k =
        if k ∈ A then acc.lookup k
        else match cur.dlookup k with
          | some v => some v
          | none => acc.lookup k := by
  intro cur
  induction cur with
  | nil => intro acc _; simp [unsetCopy]
  | cons e rest ih =>
    intro acc hnd
    obtain ⟨key, val⟩ := e
    rw [List.nodupKeys_cons] at hnd
    have hmem : (A.keys.any (fun applyKey => key == applyKey)) = decide (key ∈ A) := by
      rw [Bool.eq_iff_iff]
      simp [AList.mem_keys]
    simp only [unsetCopy, hmem]
    by_cases hkA : key ∈ A
    · simp only [hkA, decide_True, Bool.not_true, Bool.false_eq_true, if_false]
      rw [ih _ hnd.2]
      by_cases hk : key = k
      · subst hk; simp [hkA]
      · have hk' : k ≠ key := fun h => hk h.symm
        rw [List.dlookup_cons_ne _ _ hk']
    · simp only [hkA, decide_False, Bool.not_false, if_true]
      rw [ih _ hnd.2]
      by_cases hk : key = k
      · subst hk
        have : rest.dlookup key = none := List.dlookup_eq_none.mpr hnd.1
        simp [hkA, this, lookup_assign_self]
      · have hk' : k ≠ key := fun h => hk h.symm
        rw [List.dlookup_cons_ne _ _ hk', lookup_assign_ne _ _ hk']


theorem Update_calls (client : ResourceClient) (ns : String) (obj : Unstructured) (c : Cluster) :
    (client.Update ns obj c).1.calls = c.calls ++ [StoreCall.update ns obj] := by
  unfold ResourceClient.Update
  simp only [Cluster.receive]
  split
  · rfl
  · split <;> rfl

theorem label_eq (l : Labeling) (client : ResourceClient) (obj : Unstructured) (c : Cluster) :
    l.label client obj c =
      { l := if (client.Update obj.nspace (obj.SetLabels
                (copyInto l.Label.ApplyLabels.entries (copyInto obj.labels.entries ∅))) c).2.isNone
             then { l with labeledCount := l.labeledCount + 1 } else l,
        cluster := (client.Update obj.nspace (obj.SetLabels
                (copyInto l.Label.ApplyLabels.entries (copyInto obj.labels.entries ∅))) c).1,
        obj := obj.SetLabels
                (copyInto l.Label.ApplyLabels.entries (copyInto obj.labels.entries ∅)),
        err := (client.Update obj.nspace (obj.SetLabels
                (copyInto l.Label.ApplyLabels.entries (copyInto obj.labels.entries ∅))) c).2 } := by
  unfold label
  have hns : ∀ m, (obj.SetLabels m).GetNamespace = obj.nspace := fun _ => rfl
  simp only [hns, Unstructured.GetLabels]
  cases h : (client.Update obj.nspace (obj.SetLabels
      (copyInto l.Label.ApplyLabels.entries (copyInto obj.labels.entries ∅))) c).2 <;> simp

theorem label_lookup (l : Labeling) (client : ResourceClient) (obj : Unstructured) (c : Cluster)
    (k : String) :
    (l.label client obj c).obj.labels.lookup k =
      match l.Label.ApplyLabels.lookup k with
      | some v => some v
      | none => obj.labels.lookup k := by
  rw [label_eq]
  simp only [Unstructured.SetLabels, Unstructured.GetLabels]
  rw [lookup_copyInto k _ _ l.Label.ApplyLabels.nodupKeys,
    lookup_copyInto k _ _ obj.labels.nodupKeys]
  simp only [AList.lookup, AList.empty_entries, List.dlookup_nil]
  cases List.dlookup k l.Label.ApplyLabels.entries <;>
    cases List.dlookup k obj.labels.entries <;> rfl


theorem unset_eq (l : Labeling) (client : ResourceClient) (obj : Unstructured) (c : Cluster) :
    l.unset client obj c =
      if obj.labels.len = 0 ∨ obj.labels.len < l.Label.ApplyLabels.len then
        { l := l, cluster := c, obj := obj, err := none }
      else if l.Label.ApplyLabels.entries.any (fun kv => obj.labels.index kv.1 != kv.2) then
        { l := l, cluster := c, obj := obj, err := none }
      else
        { l := if (client.Update obj.nspace (obj.SetLabels
                  (unsetCopy l.Label.ApplyLabels obj.labels.entries ∅)) c).2.isNone
               then { l with unLabeledCount := l.unLabeledCount + 1 } else l,
          cluster := (client.Update obj.nspace (obj.SetLabels
                  (unsetCopy l.Label.ApplyLabels obj.labels.entries ∅)) c).1,
          obj := obj.SetLabels (unsetCopy l.Label.ApplyLabels obj.labels.entries ∅),
          err := (client.Update obj.nspace (obj.SetLabels
                  (unsetCopy l.Label.ApplyLabels obj.labels.entries ∅)) c).2 } := by
  unfold unset
  have hns : ∀ m, (obj.SetLabels m).GetNamespace = obj.nspace := fun _ => rfl
  simp only [hns, Unstructured.GetLabels]
  split
  · rfl
  · split
    · rfl
    · cases h : (client.Update obj.nspace (obj.SetLabels
        (unsetCopy l.Label.ApplyLabels obj.labels.entries ∅)) c).2 <;> simp

/-- A label map that holds every key of another is at least as long. -/
theorem len_le_of_keys_subset (A E : LabelMap) (h : ∀ k, k ∈ A → k ∈ E) : A.len ≤ E.len := by
  have hsub : A.keys ⊆ E.keys := fun k hk => AList.mem_keys.mp (h k (AList.mem_keys.mpr hk))
  have := (List.subperm_of_subset A.keys_nodup hsub).length_le
  simpa [LabelMap.len, AList.keys, List.keys] using this

theorem mem_of_lookup_eq_some {m : LabelMap} {k v : String} (h : m.lookup k = some v) :
    k ∈ m := by
  rw [← AList.lookup_isSome, h]; rfl

/-- The second guard of `unset` is the test `current[key] == val` on every pair
of `ApplyLabels`. -/
theorem mismatch_eq_false_iff (A E : LabelMap) :
    A.entries.any (fun kv => E.index kv.1 != kv.2) = false ↔
      ∀ k v, A.lookup k = some v → E.index k = v := by
  rw [List.any_eq_false]
  constructor
  · intro h k v hkv
    have hmem : (⟨k, v⟩ : Sigma fun _ : String => String) ∈ A.entries :=
      AList.mem_lookup_iff.mp hkv
    simpa using h _ hmem
  · intro h kv hmem
    obtain ⟨k, v⟩ := kv
    have := h k v (AList.mem_lookup_iff.mpr hmem)
    simp [this]

theorem index_eq_of_lookup {m : LabelMap} {k v : String} (h : m.lookup k = some v) :
    m.index k = v := by
  simp [LabelMap.index, h]

theorem len_eq_zero_iff (m : LabelMap) : m.len = 0 ↔ m = ∅ := by
  simp [LabelMap.len, AList.ext_iff]

/-- A map literal with one pair holds that pair only. -/
theorem lookup_ofList_single {a b k v : String}
    (h : (LabelMap.ofList [(a, b)]).lookup k = some v) : k = a ∧ v = b := by
  have hA : LabelMap.ofList [(a, b)] = AList.insert a b ∅ := rfl
  rw [hA] at h
  by_cases hk : k = a
  · subst hk
    rw [AList.lookup_insert] at h
    exact ⟨rfl, (Option.some.inj h).symm⟩
  · rw [AList.lookup_insert_ne hk, AList.lookup_empty] at h
    cases h

/-- A resource that carries every pair of `ApplyLabels` holds at least as many
labels as `ApplyLabels`. -/
theorem len_le_of_present (A E : LabelMap)
    (h : ∀ k v, A.lookup k = some v → E.lookup k = some v) : A.len ≤ E.len := by
  apply len_le_of_keys_subset
  intro k hk
  obtain ⟨v, hv⟩ := Option.isSome_iff_exists.mp (AList.lookup_isSome.mpr hk)
  exact mem_of_lookup_eq_some (h k v hv)

/-- When the resource carries every pair of `ApplyLabels` and has a label at
all, `unset` reaches its write. -/
theorem unset_of_present (l : Labeling) (client : ResourceClient) (obj : Unstructured)
    (c : Cluster)
    (h : ∀ k v, l.Label.ApplyLabels.lookup k = some v → obj.labels.lookup k = some v)
    (hne : obj.labels.len ≠ 0) :
    l.unset client obj c =
      { l := if (client.Update obj.nspace (obj.SetLabels
                  (unsetCopy l.Label.ApplyLabels obj.labels.entries ∅)) c).2.isNone
               then { l with unLabeledCount := l.unLabeledCount + 1 } else l,
        cluster := (client.Update obj.nspace (obj.SetLabels
                  (unsetCopy l.Label.ApplyLabels obj.labels.entries ∅)) c).1,
        obj := obj.SetLabels (unsetCopy l.Label.ApplyLabels obj.labels.entries ∅),
        err := (client.Update obj.nspace (obj.SetLabels
                  (unsetCopy l.Label.ApplyLabels obj.labels.entries ∅)) c).2 } := by
  have hle : l.Label.ApplyLabels.len ≤ obj.labels.len := len_le_of_present _ _ h
  have hmis : l.Label.ApplyLabels.entries.any (fun kv => obj.labels.index kv.1 != kv.2) = false :=
    (mismatch_eq_false_iff _ _).mpr (fun k v hkv => index_eq_of_lookup (h k v hkv))
  rw [unset_eq, if_neg (by omega), hmis]
  simp

theorem lookup_unset_obj (l : Labeling) (obj : Unstructured) (k : String) :
    (obj.SetLabels (unsetCopy l.Label.ApplyLabels obj.labels.entries ∅)).labels.lookup k =
      if k ∈ l.Label.ApplyLabels then none else obj.labels.lookup k := by
  simp only [Unstructured.SetLabels]
  rw [lookup_unsetCopy _ k _ _ obj.labels.nodupKeys]
  simp only [AList.lookup, AList.empty_entries, List.dlookup_nil]
  split
  · rfl
  · cases List.dlookup k obj.labels.entries <;> rfl

theorem label_spec (l : Labeling) (client : ResourceClient) (obj : Unstructured) (c : Cluster) :
    (l.label client obj c).l.Label = l.Label := by
  rw [label_eq]
  simp only
  split <;> rfl

theorem label_nspace (l : Labeling) (client : ResourceClient) (obj : Unstructured) (c : Cluster) :
    (l.label client obj c).obj.nspace = obj.nspace := by
  rw [label_eq]; rfl

theorem label_obj (l : Labeling) (client : ResourceClient) (obj : Unstructured) (c : Cluster) :
    (l.label client obj c).obj =
      obj.SetLabels (copyInto l.Label.ApplyLabels.entries (copyInto obj.labels.entries ∅)) := by
  rw [label_eq]

theorem label_calls (l : Labeling) (client : ResourceClient) (obj : Unstructured) (c : Cluster) :
    (l.label client obj c).cluster.calls =
      c.calls ++ [StoreCall.update obj.nspace (l.label client obj c).obj] := by
  rw [label_obj, label_eq]
  simp only [Update_calls]

theorem includeLoop_eq_true_iff (names : List String) (objName : String) (b : Bool) :
    includeLoop names objName b = true ↔ b = true ∨ objName ∈ names := by
  induction names with
  | nil => simp [includeLoop]
  | cons name rest ih =>
    simp only [includeLoop, List.mem_cons]
    by_cases h : name = objName
    · simp [h]
    · have h' : ¬ objName = name := fun e => h e.symm
      simp [h, h', ih]

/-! ## Lemmas on `Assertable.Run` -/

theorem Run_two_checks_eq (d : JobDecls) (a : Assertable) (asrt : Assert)
    (st : Unstructured) (pc : PathCheck) (sc : StateCheck)
    (hname : a.Name ≠ "") (hassert : a.Assert = some asrt) (hstate : asrt.State = some st)
    (hpath : asrt.PathCheck = some pc) (hcheck : asrt.StateCheck = some sc) :
    Assertable.Run d a = some
      { a := { a with assertCheckType := d.AssertCheckTypeState,
                      err := some (Err.moreThanOneCheck a.Name) },
        invoked := [], status := {}, err := some (Err.moreThanOneCheck a.Name) } := by
  simp [Assertable.Run, hname, hassert, hstate, Assertable.runFns, Assertable.init, hpath,
    hcheck]

/-- With neither check set, a fresh asserter leaves `init` with the default
state check installed and its check type untouched. -/
theorem Run_default_eq (d : JobDecls) (config : AssertableConfig)
    (asrt : Assert) (st : Unstructured)
    (hname : config.Name ≠ "") (hassert : config.Assert = some asrt)
    (hstate : asrt.State = some st)
    (hpath : asrt.PathCheck = none) (hcheck : asrt.StateCheck = none) :
    Assertable.Run d (Assertable.NewAsserter d config) =
      Assertable.runFns [Assertable.runAssert d]
        ({ Assertable.NewAsserter d config with
            Assert := some { asrt with
              StateCheck := some { Operator := StateCheckOperatorEquals } } }, []) := by
  simp [Assertable.Run, Assertable.NewAsserter, hname, hassert, hstate, Assertable.runFns,
    Assertable.init, hpath, hcheck]

/-- Under declarations in which the zero value of `AssertCheckType` is neither
constant, a fresh asserter with neither check set ends in the `default` branch
of `runAssert`. -/
theorem Run_default_invalid_check_type (d : JobDecls) (config : AssertableConfig)
    (asrt : Assert) (st : Unstructured)
    (hstate' : d.zeroCheckType ≠ d.AssertCheckTypeState)
    (hpath' : d.zeroCheckType ≠ d.AssertCheckTypePath)
    (hname : config.Name ≠ "") (hassert : config.Assert = some asrt)
    (hstate : asrt.State = some st)
    (hpath : asrt.PathCheck = none) (hcheck : asrt.StateCheck = none) :
    ∃ r, Assertable.Run d (Assertable.NewAsserter d config) = some r ∧ r.invoked = [] ∧
      r.status = {} ∧ r.err = some (Err.invalidOperator config.Name d.zeroCheckType) := by
  rw [Run_default_eq d config asrt st hname hassert hstate hpath hcheck]
  simp [Assertable.NewAsserter, Assertable.runFns, Assertable.runAssert, hstate', hpath']

/-! ## Lemmas on the store and on the retry loop -/

/-- An accepted update leaves the written document in the store. -/
theorem Update_stored (client : ResourceClient) (ns : String) (obj : Unstructured)
    (c : Cluster) (h : (client.Update ns obj c).2 = none) :
    obj ∈ (client.Update ns obj c).1.items := by
  unfold ResourceClient.Update at h ⊢
  simp only [Cluster.receive] at h ⊢
  split at h
  · cases h
  · split at h
    · rename_i hf hany
      rw [if_neg hf, if_pos hany]
      simp only [List.mem_map]
      obtain ⟨o, ho, hsame⟩ := List.any_eq_true.mp hany
      exact ⟨o, ho, by simp [hsame]⟩
    · cases h

theorem labelOrUnset_cases (P : Step → Prop) (l : Labeling) (client : ResourceClient)
    (obj : Unstructured) (c : Cluster)
    (hlabel : P (l.label client obj c)) (hunset : P (l.unset client obj c))
    (hskip : P { l := l, cluster := c, obj := obj, err := none }) :
    P (l.labelOrUnset client obj c) := by
  unfold labelOrUnset
  simp only
  generalize includeLoop l.Label.IncludeByNames obj.GetName
    (if l.Label.IncludeByNames.length = 0 then true else false) = b
  cases b
  · cases hau : l.Label.AutoUnset
    · simpa using hskip
    · simpa using hunset
  · simpa using hlabel

theorem unset_spec (l : Labeling) (client : ResourceClient) (obj : Unstructured) (c : Cluster) :
    (l.unset client obj c).l.Label = l.Label := by
  rw [unset_eq]
  split
  · rfl
  · split
    · rfl
    · simp only
      split <;> rfl

theorem labelOrUnset_spec (l : Labeling) (client : ResourceClient) (obj : Unstructured)
    (c : Cluster) : (l.labelOrUnset client obj c).l.Label = l.Label :=
  labelOrUnset_cases (fun s => s.l.Label = l.Label) l client obj c
    (label_spec l client obj c) (unset_spec l client obj c) rfl

theorem labelItems_spec (client : ResourceClient) :
    ∀ (items : List Unstructured) (l : Labeling) (c : Cluster),
      (labelItems l client items c).1.Label = l.Label
  | [], _, _ => rfl
  | obj :: rest, l, c => by
    simp only [labelItems]
    split
    · exact labelOrUnset_spec l client obj c
    · rw [labelItems_spec client rest]
      exact labelOrUnset_spec l client obj c

theorem labelAllAttempt_spec (st : Labeling × Cluster) :
    (labelAllAttempt st).1.1.Label = st.1.Label := by
  unfold labelAllAttempt
  simp only
  split
  · rfl
  · split
    · rfl
    · split
      · exact labelItems_spec _ _ _ _
      · exact labelItems_spec _ _ _ _

/-- A property that every attempt preserves holds of the state the retry loop
ends in. -/
theorem loop_preserves {σ : Type} (r : Retryable) (f : σ → σ × Bool × Option Err)
    (msg : String) (P : σ → Prop) (hf : ∀ s, P s → P (f s).1) :
    ∀ (n : Nat) (s : σ), P s → P (r.loop f msg n s).1
  | 0, s, hs => by
    simp only [Retryable.loop]
    split
    · exact hf s hs
    · split <;> exact hf s hs
  | n + 1, s, hs => by
    simp only [Retryable.loop]
    split
    · split
      · exact loop_preserves r f msg P hf n _ (hf s hs)
      · exact hf s hs
    · split
      · exact hf s hs
      · exact loop_preserves r f msg P hf n _ (hf s hs)

theorem Run_state (r : Retryable) (l : Labeling) (c : Cluster) (P : Labeling × Cluster → Prop)
    (hP : P (l, c)) (hf : ∀ s, P s → P (labelAllAttempt s).1) :
    P (l.Run r.Waitf c).1 := by
  unfold Run
  split
  · exact hP
  · unfold labelAll
    simp only
    have := loop_preserves r labelAllAttempt
      ("Label resource " ++ l.Label.State.GetNamespace ++ " " ++
        l.Label.State.GetName ++ ": GVK " ++ l.Label.State.GroupVersionKind) P hf r.retries
      (l, c) hP
    split <;> exact this

/-! ## Lemmas on the `Assert` spec -/

theorem runAssertByPath_Assert (d : JobDecls) (st st1 : AssertState)
    (h : Assertable.runAssertByPath d st = some st1) : st1.1.Assert = st.1.Assert := by
  unfold Assertable.runAssertByPath at h
  simp only at h
  split at h
  · cases h
  · split at h
    · cases h
    · split at h <;> (cases h; rfl)

theorem runAssertByState_Assert (d : JobDecls) (st st1 : AssertState)
    (h : Assertable.runAssertByState d st = some st1) : st1.1.Assert = st.1.Assert := by
  unfold Assertable.runAssertByState at h
  simp only at h
  split at h
  · cases h
  · split at h
    · cases h
    · split at h <;> (cases h; rfl)

theorem runAssert_Assert (d : JobDecls) (st st1 : AssertState)
    (h : Assertable.runAssert d st = some st1) : st1.1.Assert = st.1.Assert := by
  unfold Assertable.runAssert at h
  split at h
  · exact runAssertByPath_Assert d st st1 h
  · split at h
    · exact runAssertByState_Assert d st st1 h
    · cases h; rfl

theorem init_Assert (d : JobDecls) (st st1 : AssertState) (asrt : Assert)
    (ha : st.1.Assert = some asrt) (h : Assertable.init d st = some st1) :
    ∃ asrt1, st1.1.Assert = some asrt1 ∧ asrt1.State = asrt.State ∧
      asrt1.PathCheck = asrt.PathCheck ∧
      asrt1.StateCheck =
        if asrt.PathCheck.isNone && asrt.StateCheck.isNone then
          some ⟨StateCheckOperatorEquals⟩
        else asrt.StateCheck := by
  unfold Assertable.init at h
  simp only [ha] at h
  cases hp : asrt.PathCheck <;> cases hs : asrt.StateCheck <;>
    simp [hp, hs] at h <;> (cases h; simp [ha, hp, hs])

theorem runFns_one_Assert (d : JobDecls) (st : AssertState) (r : RunResult)
    (h : Assertable.runFns [Assertable.runAssert d] st = some r) : r.a.Assert = st.1.Assert := by
  simp only [Assertable.runFns] at h
  split at h
  · cases h
  · rename_i st1 hst1
    have := runAssert_Assert d st st1 hst1
    split at h
    · cases h; exact this
    · split at h
      · cases h
      · cases h; exact this

theorem Run_Assert (d : JobDecls) (a : Assertable) (r : RunResult)
    (h : Assertable.Run d a = some r) :
    (a.Assert = none → r.a.Assert = none) ∧
    (∀ asrt, a.Assert = some asrt →
      ∃ asrt1, r.a.Assert = some asrt1 ∧ asrt1.State = asrt.State ∧
        asrt1.PathCheck = asrt.PathCheck ∧
        asrt1.StateCheck =
          if a.Name ≠ "" ∧ asrt.State.isSome ∧ asrt.PathCheck.isNone ∧ asrt.StateCheck.isNone
          then some ⟨StateCheckOperatorEquals⟩
          else asrt.StateCheck) := by
  unfold Assertable.Run at h
  split at h
  · rename_i hname
    cases h
    exact ⟨fun h => h, fun asrt ha => ⟨asrt, ha, rfl, rfl, by simp [hname]⟩⟩
  · rename_i hname
    split at h
    · rename_i hnil
      cases h
      refine ⟨fun h => h, fun asrt ha => ⟨asrt, ha, rfl, rfl, ?_⟩⟩
      have : asrt.State = none := by simpa [ha] using hnil
      simp [this]
    · rename_i hnil
      cases ha : a.Assert with
      | none => simp [ha] at hnil
      | some asrt =>
        have hst : asrt.State.isSome = true := by
          cases hs : asrt.State
          · simp [ha, hs] at hnil
          · rfl
        refine ⟨fun h => (by cases h), fun asrt0 ha0 => ?_⟩
        cases ha0
        simp only [Assertable.runFns] at h
        split at h
        · cases h
        · rename_i st1 hst1
          obtain ⟨asrt1, h1, h2, h3, h4⟩ := init_Assert d (a, []) st1 asrt ha hst1
          have hfin : r.a.Assert = st1.1.Assert := by
            split at h
            · cases h; rfl
            · exact runFns_one_Assert d st1 r h
          refine ⟨asrt1, hfin.trans h1, h2, h3, ?_⟩
          rw [h4]
          cases asrt.PathCheck.isNone <;> cases asrt.StateCheck.isNone <;> simp [hname, hst]

/-! ## Lemmas on the counters -/

theorem unset_eq_guard (l : Labeling) (client : ResourceClient) (obj : Unstructured)
    (c : Cluster) :
    l.unset client obj c =
      if unsetGuard l.Label.ApplyLabels obj.labels then
        { l := if (client.Update obj.nspace (obj.SetLabels
                  (unsetCopy l.Label.ApplyLabels obj.labels.entries ∅)) c).2.isNone
               then { l with unLabeledCount := l.unLabeledCount + 1 } else l,
          cluster := (client.Update obj.nspace (obj.SetLabels
                  (unsetCopy l.Label.ApplyLabels obj.labels.entries ∅)) c).1,
          obj := obj.SetLabels (unsetCopy l.Label.ApplyLabels obj.labels.entries ∅),
          err := (client.Update obj.nspace (obj.SetLabels
                  (unsetCopy l.Label.ApplyLabels obj.labels.entries ∅)) c).2 }
      else { l := l, cluster := c, obj := obj, err := none } := by
  rw [unset_eq]
  unfold unsetGuard
  by_cases h1 : obj.labels.len = 0 ∨ obj.labels.len < l.Label.ApplyLabels.len
  · simp [h1]
  · cases h2 : l.Label.ApplyLabels.entries.any (fun kv => obj.labels.index kv.1 != kv.2)
    · simp [h1, h2]
    · simp [h1, h2]

theorem labelOrUnset_of_included (l : Labeling) (client : ResourceClient) (obj : Unstructured)
    (c : Cluster) (h : l.Label.IncludeByNames = [] ∨ obj.name ∈ l.Label.IncludeByNames) :
    l.labelOrUnset client obj c = l.label client obj c := by
  unfold labelOrUnset
  have : includeLoop l.Label.IncludeByNames obj.GetName
      (if l.Label.IncludeByNames.length = 0 then true else false) = true := by
    rw [includeLoop_eq_true_iff]
    rcases h with h | h
    · left; simp [h]
    · right; exact h
  simp only [this, if_true]

theorem labelOrUnset_of_excluded (l : Labeling) (client : ResourceClient) (obj : Unstructured)
    (c : Cluster) (h : ¬ (l.Label.IncludeByNames = [] ∨ obj.name ∈ l.Label.IncludeByNames)) :
    l.labelOrUnset client obj c =
      if l.Label.AutoUnset = true then l.unset client obj c
      else { l := l, cluster := c, obj := obj, err := none } := by
  unfold labelOrUnset
  have : includeLoop l.Label.IncludeByNames obj.GetName
      (if l.Label.IncludeByNames.length = 0 then true else false) = false := by
    cases hb : includeLoop l.Label.IncludeByNames obj.GetName
      (if l.Label.IncludeByNames.length = 0 then true else false)
    · rfl
    · rw [includeLoop_eq_true_iff] at hb
      rcases hb with h1 | h1
      · exact absurd (Or.inl (List.length_eq_zero.mp (by
          by_contra hlen; simp [hlen] at h1))) h
      · exact absurd (Or.inr h1) h
  simp only [this]
  cases l.Label.AutoUnset <;> simp

/-- What one accepted `labelOrUnset` adds to the counters. -/
theorem labelOrUnset_counts (l : Labeling) (client : ResourceClient) (obj : Unstructured)
    (c : Cluster) (h : (l.labelOrUnset client obj c).err = none) :
    (l.labelOrUnset client obj c).l =
      { l with
        labeledCount := l.labeledCount +
          (if l.Label.IncludeByNames = [] ∨ obj.name ∈ l.Label.IncludeByNames then 1 else 0),
        unLabeledCount := l.unLabeledCount +
          (if ¬ (l.Label.IncludeByNames = [] ∨ obj.name ∈ l.Label.IncludeByNames) ∧
              l.Label.AutoUnset = true ∧ unsetGuard l.Label.ApplyLabels obj.labels = true
            then 1 else 0) } := by
  by_cases hinc : l.Label.IncludeByNames = [] ∨ obj.name ∈ l.Label.IncludeByNames
  · rw [labelOrUnset_of_included l client obj c hinc] at h ⊢
    rw [label_eq] at h ⊢
    simp only at h
    simp [h, hinc]
  · rw [labelOrUnset_of_excluded l client obj c hinc] at h ⊢
    cases hau : l.Label.AutoUnset
    · simp [hinc, hau]
    · simp only [hau, if_true] at h ⊢
      rw [unset_eq_guard] at h ⊢
      cases hg : unsetGuard l.Label.ApplyLabels obj.labels
      · simp [hinc, hg]
      · simp only [hg, if_true] at h ⊢
        simp [h, hinc]

theorem labelItems_counts (client : ResourceClient) :
    ∀ (items : List Unstructured) (l : Labeling) (c : Cluster),
      (labelItems l client items c).2.2 = none →
      (labelItems l client items c).1 =
        { l with
          labeledCount := l.labeledCount + items.countP (fun o =>
            decide (l.Label.IncludeByNames = [] ∨ o.name ∈ l.Label.IncludeByNames)),
          unLabeledCount := l.unLabeledCount + items.countP (fun o =>
            !decide (l.Label.IncludeByNames = [] ∨ o.name ∈ l.Label.IncludeByNames) &&
              l.Label.AutoUnset && unsetGuard l.Label.ApplyLabels o.labels) }
  | [], l, c, _ => by simp [labelItems]
  | obj :: rest, l, c, h => by
    simp only [labelItems] at h ⊢
    cases herr : (l.labelOrUnset client obj c).err with
    | some e => simp [herr] at h
    | none =>
      simp only [herr] at h ⊢
      rw [labelItems_counts client rest _ _ h, labelOrUnset_counts l client obj c herr]
      simp only [List.countP_cons]
      by_cases hinc : l.Label.IncludeByNames = [] ∨ obj.name ∈ l.Label.IncludeByNames
      · simp [hinc, Nat.add_assoc, Nat.add_comm]
      · cases hau : l.Label.AutoUnset <;>
          cases hg : unsetGuard l.Label.ApplyLabels obj.labels <;>
          simp [hinc, hau, hg, Nat.add_assoc, Nat.add_comm]

theorem loop_first_done {σ : Type} (r : Retryable) (f : σ → σ × Bool × Option Err)
    (msg : String) (n : Nat) (s : σ) (h : (f s).2 = (true, none)) :
    r.loop f msg n s = ((f s).1, none) := by
  have h1 : (f s).2.2 = none := by rw [h]
  have h2 : (f s).2.1 = true := by rw [h]
  cases n <;> simp [Retryable.loop, h1, h2]

theorem labelAllAttempt_clean (l : Labeling) (c c1 c2 : Cluster) (client : ResourceClient)
    (listed : List Unstructured)
    (hclient : c.GetClientForAPIVersionAndKind l.Label.State.GetAPIVersion
      l.Label.State.GetKind = (c1, Except.ok client))
    (hlist : client.List l.Label.State.GetNamespace l.Label.State.GetLabels c1 =
      (c2, Except.ok listed))
    (hitems : (labelItems { l with totalFoundCount := listed.length } client listed c2).2.2
      = none) :
    labelAllAttempt (l, c) =
      (((labelItems { l with totalFoundCount := listed.length } client listed c2).1,
        (labelItems { l with totalFoundCount := listed.length } client listed c2).2.1),
        true, none) := by
  unfold labelAllAttempt
  simp only [hclient, hlist, hitems]


/-! ## Lemmas on the counters across one attempt -/

theorem labelOrUnset_count_le (l : Labeling) (client : ResourceClient) (obj : Unstructured)
    (c : Cluster) :
    (l.labelOrUnset client obj c).l.labeledCount + (l.labelOrUnset client obj c).l.unLabeledCount
        ≤ l.labeledCount + l.unLabeledCount + 1 ∧
      (l.labelOrUnset client obj c).l.totalFoundCount = l.totalFoundCount := by
  refine labelOrUnset_cases
    (fun s => s.l.labeledCount + s.l.unLabeledCount ≤ l.labeledCount + l.unLabeledCount + 1 ∧
      s.l.totalFoundCount = l.totalFoundCount) l client obj c ?_ ?_ ⟨by simp only; omega, rfl⟩
  · rw [label_eq]
    simp only
    split
    · exact ⟨by simp only; omega, rfl⟩
    · exact ⟨by omega, rfl⟩
  · rw [unset_eq]
    split
    · exact ⟨by simp only; omega, rfl⟩
    · split
      · exact ⟨by simp only; omega, rfl⟩
      · simp only
        split
        · exact ⟨by simp only; omega, rfl⟩
        · exact ⟨by omega, rfl⟩

theorem labelItems_count_le (client : ResourceClient) :
    ∀ (items : List Unstructured) (l : Labeling) (c : Cluster),
      (labelItems l client items c).1.labeledCount +
          (labelItems l client items c).1.unLabeledCount
        ≤ l.labeledCount + l.unLabeledCount + items.length ∧
      (labelItems l client items c).1.totalFoundCount = l.totalFoundCount
  | [], l, c => ⟨by simp [labelItems], rfl⟩
  | obj :: rest, l, c => by
    have hstep := labelOrUnset_count_le l client obj c
    simp only [labelItems]
    split
    · exact ⟨by simp only [List.length_cons]; omega, hstep.2⟩
    · have hrec := labelItems_count_le client rest (l.labelOrUnset client obj c).l
        (l.labelOrUnset client obj c).cluster
      exact ⟨by simp only [List.length_cons]; omega, hrec.2.trans hstep.2⟩

/-- One attempt of a labeler whose counters are all zero ends with no more
labeled and unlabeled resources than it found. -/
theorem fresh_attempt_counts_le_found (l : Labeling) (c : Cluster)
    (hfound : l.totalFoundCount = 0) (hlabeled : l.labeledCount = 0)
    (hunlabeled : l.unLabeledCount = 0) :
    (labelAllAttempt (l, c)).1.1.labeledCount + (labelAllAttempt (l, c)).1.1.unLabeledCount
      ≤ (labelAllAttempt (l, c)).1.1.totalFoundCount := by
  unfold labelAllAttempt
  simp only
  split
  · simp only; omega
  · split
    · simp only; omega
    · rename_i client _ _ items _
      have h := labelItems_count_le client items { l with totalFoundCount := items.length }
        ((client.List l.Label.State.GetNamespace l.Label.State.GetLabels
          (c.GetClientForAPIVersionAndKind l.Label.State.GetAPIVersion
            l.Label.State.GetKind).1).1)
      split <;> (simp only at h ⊢; omega)

/-! ## Lemmas on the replay of the journal -/

theorem sameResource_iff (u v : Unstructured) :
    u.sameResource v = true ↔
      u.apiVersion = v.apiVersion ∧ u.kind = v.kind ∧ u.nspace = v.nspace ∧ u.name = v.name := by
  simp [Unstructured.sameResource, and_assoc]

theorem sameResource_symm {u v : Unstructured} (h : u.sameResource v = true) :
    v.sameResource u = true := by
  rw [sameResource_iff] at h ⊢
  exact ⟨h.1.symm, h.2.1.symm, h.2.2.1.symm, h.2.2.2.symm⟩

theorem sameResource_trans {u v w : Unstructured} (h1 : u.sameResource v = true)
    (h2 : v.sameResource w = true) : u.sameResource w = true := by
  rw [sameResource_iff] at h1 h2 ⊢
  exact ⟨h1.1.trans h2.1, h1.2.1.trans h2.2.1, h1.2.2.1.trans h2.2.2.1,
    h1.2.2.2.trans h2.2.2.2⟩

theorem exists_same_map (items : List Unstructured) (o obj : Unstructured)
    (hex : ∃ x ∈ items, x.sameResource o = true) :
    ∃ x ∈ items.map (fun x => if x.sameResource obj then obj else x),
      x.sameResource o = true := by
  obtain ⟨x, hx, hxo⟩ := hex
  by_cases hxobj : x.sameResource obj = true
  · exact ⟨obj, List.mem_map.mpr ⟨x, hx, by simp [hxobj]⟩,
      sameResource_trans (sameResource_symm hxobj) hxo⟩
  · exact ⟨x, List.mem_map.mpr ⟨x, hx, by simp [hxobj]⟩, hxo⟩

theorem replay_exists (o : Unstructured) :
    ∀ (extra : List StoreCall) (items : List Unstructured) (faults : List Bool),
      (∃ x ∈ items, x.sameResource o = true) →
      ∃ x ∈ Cluster.replay items faults extra, x.sameResource o = true
  | [], _, _, h => h
  | call :: rest, items, faults, h => by
    simp only [Cluster.replay]
    apply replay_exists o rest
    cases call with
    | update ns obj =>
      simp only
      split
      · exact h
      · exact exists_same_map items o obj h
    | getClient _ _ => exact h
    | list _ _ _ _ => exact h

/-- Claim C2. When the resource carries every key of `ApplyLabels` with the
desired value, the label map that `unset` leaves on the document, which is the
one it sends to the store, has no key of `ApplyLabels` and maps every other key
to what the resource had (absent keys stay absent); the rest of the document is
unchanged, and for a non-empty `ApplyLabels` that document is the one `Update`
request issued. -/
theorem unset_removes_exactly_apply_keys (l : Labeling) (client : ResourceClient)
    (obj : Unstructured) (c : Cluster)
    (h : ∀ k v, l.Label.ApplyLabels.lookup k = some v → obj.labels.lookup k = some v) :
    (∀ k, (l.unset client obj c).obj.labels.lookup k =
        if k ∈ l.Label.ApplyLabels then none else obj.labels.lookup k) ∧
      (l.unset client obj c).obj = obj.SetLabels (l.unset client obj c).obj.labels ∧
      (l.Label.ApplyLabels.len ≠ 0 →
        (l.unset client obj c).cluster.calls =
          c.calls ++ [StoreCall.update obj.nspace (l.unset client obj c).obj]) := by
  by_cases hE : obj.labels.len = 0
  · have hA : l.Label.ApplyLabels.len = 0 := by
      have := len_le_of_present _ _ h
      omega
    rw [unset_eq, if_pos (Or.inl hE)]
    refine ⟨?_, rfl, fun hne => absurd hA hne⟩
    intro k
    have : obj.labels = ∅ := (len_eq_zero_iff _).mp hE
    simp [this]
  · rw [unset_of_present l client obj c h hE]
    refine ⟨fun k => lookup_unset_obj l obj k, rfl, fun _ => ?_⟩
    simp only [Update_calls]

/-- Witness of C2: labels `{a: "1", b: "2"}` with `ApplyLabels = {a: "1"}`
yield `{b: "2"}`. -/
theorem unset_removes_exactly_apply_keys_witness :
    ((Examples.labeler [("a", "1")] ["other"] true).unset Examples.client
        (Examples.pod "r" [("a", "1"), ("b", "2")])
        (Examples.cluster [Examples.pod "r" [("a", "1"), ("b", "2")]] [])).obj.labels.lookup "a"
        = none ∧
      ((Examples.labeler [("a", "1")] ["other"] true).unset Examples.client
        (Examples.pod "r" [("a", "1"), ("b", "2")])
        (Examples.cluster [Examples.pod "r" [("a", "1"), ("b", "2")]] [])).obj.labels.lookup "b"
        = some "2" := by
  have h := unset_removes_exactly_apply_keys (Examples.labeler [("a", "1")] ["other"] true)
    Examples.client (Examples.pod "r" [("a", "1"), ("b", "2")])
    (Examples.cluster [Examples.pod "r" [("a", "1"), ("b", "2")]] [])
    (fun k v hkv => by
      obtain ⟨hk, hv⟩ := lookup_ofList_single hkv
      subst hk; subst hv
      decide)
  exact ⟨(h.1 "a").trans (by decide), (h.1 "b").trans (by decide)⟩

/-- Claim C3. The document that `label` sends to the store carries a label map
whose keys are the keys of the existing labels together with the keys of
`ApplyLabels`, that maps every key of `ApplyLabels` to the desired value, and
that maps every other key to the value the resource had. -/
theorem label_merges_apply_labels (l : Labeling) (client : ResourceClient) (obj : Unstructured)
    (c : Cluster) :
    (l.label client obj c).cluster.calls =
        c.calls ++ [StoreCall.update obj.nspace (l.label client obj c).obj] ∧
      (∀ k, k ∈ (l.label client obj c).obj.labels ↔ k ∈ obj.labels ∨ k ∈ l.Label.ApplyLabels) ∧
      (∀ k v, l.Label.ApplyLabels.lookup k = some v →
        (l.label client obj c).obj.labels.lookup k = some v) ∧
      (∀ k, k ∉ l.Label.ApplyLabels →
        (l.label client obj c).obj.labels.lookup k = obj.labels.lookup k) := by
  refine ⟨label_calls l client obj c, ?_, ?_, ?_⟩
  · intro k
    rw [← AList.lookup_isSome, label_lookup, ← AList.lookup_isSome, ← AList.lookup_isSome]
    cases AList.lookup k l.Label.ApplyLabels <;> simp
  · intro k v h
    rw [label_lookup, h]
  · intro k h
    rw [label_lookup, AList.lookup_eq_none.mpr h]

/-- Claim C4. `labelOrUnset` follows this decision table: a resource is included
when `IncludeByNames` is empty or holds its name; an included resource is
labeled whatever `AutoUnset` says; a resource that is not included goes to
`unset` when `AutoUnset` is true; otherwise nothing happens: the store, the
document and the receiver with its counters stay as they are and no error is
returned. -/
theorem labelOrUnset_decision_table (l : Labeling) (client : ResourceClient)
    (obj : Unstructured) (c : Cluster) :
    l.labelOrUnset client obj c =
      if l.Label.IncludeByNames = [] ∨ obj.name ∈ l.Label.IncludeByNames then
        l.label client obj c
      else if l.Label.AutoUnset = true then l.unset client obj c
      else { l := l, cluster := c, obj := obj, err := none } := by
  unfold labelOrUnset
  simp only [Unstructured.GetName]
  by_cases hinc : l.Label.IncludeByNames = [] ∨ obj.name ∈ l.Label.IncludeByNames
  · have : includeLoop l.Label.IncludeByNames obj.name
        (if l.Label.IncludeByNames.length = 0 then true else false) = true := by
      rw [includeLoop_eq_true_iff]
      rcases hinc with h | h
      · left; simp [h]
      · right; exact h
    simp only [this, if_pos hinc, if_true]
  · have : includeLoop l.Label.IncludeByNames obj.name
        (if l.Label.IncludeByNames.length = 0 then true else false) = false := by
      cases hb : includeLoop l.Label.IncludeByNames obj.name
        (if l.Label.IncludeByNames.length = 0 then true else false)
      · rfl
      · rw [includeLoop_eq_true_iff] at hb
        rcases hb with h | h
        · exact absurd (Or.inl (List.length_eq_zero.mp (by
            by_contra hlen; simp [hlen] at h))) hinc
        · exact absurd (Or.inr h) hinc
    simp only [this, if_neg hinc]
    cases l.Label.AutoUnset <;> simp

/-- Claim C5. With a non-empty name, a state and both `PathCheck` and
`StateCheck` set, `Run` returns the error "more than one assert checks found"
and the empty status, and invokes neither checker. -/
theorem Run_rejects_two_checks (d : JobDecls) (a : Assertable) (asrt : Assert)
    (st : Unstructured) (pc : PathCheck) (sc : StateCheck)
    (hname : a.Name ≠ "") (hassert : a.Assert = some asrt) (hstate : asrt.State = some st)
    (hpath : asrt.PathCheck = some pc) (hcheck : asrt.StateCheck = some sc) :
    ∃ r, Assertable.Run d a = some r ∧ r.err = some (Err.moreThanOneCheck a.Name) ∧
      r.status = {} ∧ r.invoked = [] :=
  ⟨_, Run_two_checks_eq d a asrt st pc sc hname hassert hstate hpath hcheck, rfl, rfl, rfl⟩

/-- Witness of C5: the asserter `check` with a path check and a state check. -/
theorem Run_rejects_two_checks_witness :
    ∃ r, Assertable.Run Examples.decls
        (Examples.asserter (some
          { State := some (Examples.pod "r" []), StateCheck := some { Operator := "Equals" },
            PathCheck := some { Path := "status.phase", Operator := "Equals",
                                Value := "Running" } })) = some r ∧
      r.err = some (Err.moreThanOneCheck "check") ∧ r.status = {} ∧ r.invoked = [] :=
  Run_rejects_two_checks Examples.decls
    (Examples.asserter (some
      { State := some (Examples.pod "r" []), StateCheck := some { Operator := "Equals" },
        PathCheck := some { Path := "status.phase", Operator := "Equals",
                            Value := "Running" } }))
    { State := some (Examples.pod "r" []), StateCheck := some { Operator := "Equals" },
      PathCheck := some { Path := "status.phase", Operator := "Equals", Value := "Running" } }
    (Examples.pod "r" []) { Path := "status.phase", Operator := "Equals", Value := "Running" }
    { Operator := "Equals" } (by decide) rfl rfl rfl rfl

/-- Claim C6. Under declarations in which `AssertCheckTypeState` is the zero
value of `AssertCheckType` and differs from `AssertCheckTypePath`, `Run` on a
fresh asserter with a non-empty name, a state and neither check set invokes the
state checker once, with operator `Equals` and the given state, and returns
that checker's outcome: its status with no error, or its error with the empty
status. -/
theorem Run_defaults_to_state_check_equals (d : JobDecls) (config : AssertableConfig)
    (asrt : Assert) (st : Unstructured)
    (hzero : d.zeroCheckType = d.AssertCheckTypeState)
    (hdistinct : d.AssertCheckTypePath ≠ d.AssertCheckTypeState)
    (hname : config.Name ≠ "") (hassert : config.Assert = some asrt)
    (hstate : asrt.State = some st)
    (hpath : asrt.PathCheck = none) (hcheck : asrt.StateCheck = none) :
    ∃ r, Assertable.Run d (Assertable.NewAsserter d config) = some r ∧
      r.invoked = [CheckerCall.state
        { Name := config.Name, Fixture := config.Fixture, State := some st,
          StateCheck := { Operator := StateCheckOperatorEquals }, Retry := config.Retry }] ∧
      (∀ got, d.stateCheckerRun
          { Name := config.Name, Fixture := config.Fixture, State := some st,
            StateCheck := { Operator := StateCheckOperatorEquals }, Retry := config.Retry } =
            Except.ok got →
          r.err = none ∧
            r.status = { Phase := d.stateToAssertResultPhase got.Phase, Message := got.Message,
                         Verbose := got.Verbose, Warning := got.Warning }) ∧
      (∀ e, d.stateCheckerRun
          { Name := config.Name, Fixture := config.Fixture, State := some st,
            StateCheck := { Operator := StateCheckOperatorEquals }, Retry := config.Retry } =
            Except.error e →
          r.err = some e ∧ r.status = {}) := by
  have hne' : ¬ d.AssertCheckTypeState = d.AssertCheckTypePath := fun h => hdistinct h.symm
  rw [Run_default_eq d config asrt st hname hassert hstate hpath hcheck]
  cases hrun : d.stateCheckerRun
      { Name := config.Name, Fixture := config.Fixture, State := some st,
        StateCheck := { Operator := StateCheckOperatorEquals }, Retry := config.Retry } with
  | error e =>
    simp [Assertable.NewAsserter, Assertable.runFns, Assertable.runAssert, hzero, hne',
      Assertable.runAssertByState, hrun, hstate]
  | ok got =>
    simp [Assertable.NewAsserter, Assertable.runFns, Assertable.runAssert, hzero, hne',
      Assertable.runAssertByState, hrun, hstate]

/-- Witness of C6: the asserter `check` over a spec that only has a state; the
state checker is invoked and its `Passed` status comes back. -/
theorem Run_defaults_to_state_check_equals_witness :
    ∃ r, Assertable.Run Examples.decls
        (Examples.asserter (some
          { State := some (Examples.pod "r" []), StateCheck := none, PathCheck := none })) =
          some r ∧
      r.invoked.length = 1 ∧ r.err = none ∧ r.status.Phase = "Passed" ∧
        r.status.Message = "state" := by
  obtain ⟨r, hr, hinv, hok, -⟩ := Run_defaults_to_state_check_equals Examples.decls
    { Fixture := 0, Retry := 0, Name := "check",
      Assert := some { State := some (Examples.pod "r" []), StateCheck := none,
                       PathCheck := none } }
    { State := some (Examples.pod "r" []), StateCheck := none, PathCheck := none }
    (Examples.pod "r" []) rfl (by decide) (by decide) rfl rfl rfl rfl
  have h := hok _ rfl
  exact ⟨r, hr, (congrArg List.length hinv).trans rfl, h.1,
    (congrArg AssertStatus.Phase h.2).trans rfl, (congrArg AssertStatus.Message h.2).trans rfl⟩

/-- Claim C7. When the name is empty, or the `Assert` pointer is nil, or its
state is nil, `Run` returns an error and the empty status, the receiver is left
as it was (`init` has not run) and no checker is invoked; with an empty name
the error is the missing-name error whatever the state is, and otherwise it is
the nil-state error. -/
theorem Run_checks_name_and_state_first (d : JobDecls) (a : Assertable)
    (h : a.Name = "" ∨ a.Assert = none ∨ ∃ asrt, a.Assert = some asrt ∧ asrt.State = none) :
    ∃ e, Assertable.Run d a = some { a := a, invoked := [], status := {}, err := some e } ∧
      (a.Name = "" → e = Err.missingAssertName) ∧
      (a.Name ≠ "" → e = Err.nilAssertState a.Name) := by
  by_cases hname : a.Name = ""
  · exact ⟨_, by simp [Assertable.Run, hname], fun _ => rfl, fun hn => absurd hname hn⟩
  · refine ⟨Err.nilAssertState a.Name, ?_, fun hn => absurd hn hname, fun _ => rfl⟩
    rcases h with h | h | ⟨asrt, h1, h2⟩
    · exact absurd h hname
    · simp [Assertable.Run, hname, h]
    · simp [Assertable.Run, hname, h1, h2]

/-- Witness of C7: the asserter `check` over a spec whose state is nil. -/
theorem Run_checks_name_and_state_first_witness :
    ∃ e, Assertable.Run Examples.decls
        (Examples.asserter (some { State := none, StateCheck := none, PathCheck := none })) =
          some { a := Examples.asserter
                   (some { State := none, StateCheck := none, PathCheck := none }),
                 invoked := [], status := {}, err := some e } ∧
      e = Err.nilAssertState "check" := by
  obtain ⟨e, he, -, hne⟩ := Run_checks_name_and_state_first Examples.decls
    (Examples.asserter (some { State := none, StateCheck := none, PathCheck := none }))
    (Or.inr (Or.inr ⟨_, rfl, rfl⟩))
  exact ⟨e, he, hne (by decide)⟩

/-- Claim C8. With an empty (or nil) `ApplyLabels`, `Labeling.Run` returns a nil
result and the error "Missing ApplyLabels" whatever the retry primitive is: the
receiver with its counters and the store with its journal of requests are left
as they were. With a non-empty `ApplyLabels` it returns what `labelAll` returns. -/
theorem Run_fails_fast_without_apply_labels (waitf : Waitf) (l : Labeling) (c : Cluster) :
    (l.Label.ApplyLabels.entries = [] →
        l.Run waitf c = ((l, c), none, some Err.missingApplyLabels)) ∧
      (l.Label.ApplyLabels.entries ≠ [] → l.Run waitf c = l.labelAll waitf c) := by
  unfold Labeling.Run LabelMap.len
  constructor
  · intro h; simp [h]
  · intro h; simp [h]

/-- Claim C10, evaluated where the code departs from it. `ApplyLabels` is
`{a: "", b: "1"}` and `AutoUnset` is true; the pod `r` is not included and its
labels `{b: "1", c: "3"}` have no key `a`, so it does not carry every desired
pair. `labelOrUnset` nevertheless removes `b`: the document and the store end
with `{c: "3"}`, and the resource is counted as unlabeled. -/
theorem labelOrUnset_unsets_incomplete_match :
    (Examples.labeler [("a", ""), ("b", "1")] ["other"] true).Label.ApplyLabels.pairs =
        [("b", "1"), ("a", "")] ∧
      (Examples.pod "r" [("b", "1"), ("c", "3")]).labels.lookup "a" = none ∧
      Examples.emptyValueUnset.obj.labels.pairs = [("c", "3")] ∧
      Examples.storedLabels Examples.emptyValueUnset.cluster = [[("c", "3")]] ∧
      Examples.emptyValueUnset.err.isNone = true ∧
      Examples.emptyValueUnset.l.unLabeledCount = 1 := by
  decide

/-- Claim C11. For an asserter with a non-empty name, a state, no pending error
and exactly one check set (the two check-type constants being distinct), `Run`
invokes the matching checker once and the other one never. When the checker
returns a status, `Run` returns no error and a status with the checker's
message, verbose text and warning and with the checker's phase converted by
`ToAssertResultPhase`; when the checker returns an error, `Run` returns that
error with the empty status. -/
theorem Run_dispatches_to_the_set_check (d : JobDecls) (a : Assertable) (asrt : Assert)
    (st : Unstructured)
    (hdistinct : d.AssertCheckTypePath ≠ d.AssertCheckTypeState)
    (hname : a.Name ≠ "") (hassert : a.Assert = some asrt) (hstate : asrt.State = some st)
    (herr : a.err = none) :
    (∀ pc, asrt.PathCheck = some pc → asrt.StateCheck = none →
      ∃ r, Assertable.Run d a = some r ∧
        r.invoked = [CheckerCall.path
          { Name := a.Name, Fixture := a.Fixture, State := some st, PathCheck := pc,
            Retry := a.Retry }] ∧
        (∀ got, d.pathCheckerRun
            { Name := a.Name, Fixture := a.Fixture, State := some st, PathCheck := pc,
              Retry := a.Retry } = Except.ok got →
          r.err = none ∧
            r.status = { Phase := d.pathToAssertResultPhase got.Phase, Message := got.Message,
                         Verbose := got.Verbose, Warning := got.Warning }) ∧
        (∀ e, d.pathCheckerRun
            { Name := a.Name, Fixture := a.Fixture, State := some st, PathCheck := pc,
              Retry := a.Retry } = Except.error e →
          r.err = some e ∧ r.status = {})) ∧
    (∀ sc, asrt.StateCheck = some sc → asrt.PathCheck = none →
      ∃ r, Assertable.Run d a = some r ∧
        r.invoked = [CheckerCall.state
          { Name := a.Name, Fixture := a.Fixture, State := some st, StateCheck := sc,
            Retry := a.Retry }] ∧
        (∀ got, d.stateCheckerRun
            { Name := a.Name, Fixture := a.Fixture, State := some st, StateCheck := sc,
              Retry := a.Retry } = Except.ok got →
          r.err = none ∧
            r.status = { Phase := d.stateToAssertResultPhase got.Phase, Message := got.Message,
                         Verbose := got.Verbose, Warning := got.Warning }) ∧
        (∀ e, d.stateCheckerRun
            { Name := a.Name, Fixture := a.Fixture, State := some st, StateCheck := sc,
              Retry := a.Retry } = Except.error e →
          r.err = some e ∧ r.status = {})) := by
  have hne' : ¬ d.AssertCheckTypeState = d.AssertCheckTypePath := fun h => hdistinct h.symm
  constructor
  · intro pc hpath hcheck
    cases hrun : d.pathCheckerRun
        { Name := a.Name, Fixture := a.Fixture, State := some st, PathCheck := pc,
          Retry := a.Retry } with
    | error e =>
      simp [Assertable.Run, hname, hassert, hstate, Assertable.runFns, Assertable.init, hpath,
        hcheck, herr, Assertable.runAssert, Assertable.runAssertByPath, hrun]
    | ok got =>
      simp [Assertable.Run, hname, hassert, hstate, Assertable.runFns, Assertable.init, hpath,
        hcheck, herr, Assertable.runAssert, Assertable.runAssertByPath, hrun]
  · intro sc hcheck hpath
    cases hrun : d.stateCheckerRun
        { Name := a.Name, Fixture := a.Fixture, State := some st, StateCheck := sc,
          Retry := a.Retry } with
    | error e =>
      simp [Assertable.Run, hname, hassert, hstate, Assertable.runFns, Assertable.init, hpath,
        hcheck, herr, Assertable.runAssert, Assertable.runAssertByState, hrun, hne']
    | ok got =>
      simp [Assertable.Run, hname, hassert, hstate, Assertable.runFns, Assertable.init, hpath,
        hcheck, herr, Assertable.runAssert, Assertable.runAssertByState, hrun, hne']

/-- Witness of C11: the asserter `check` over a spec with a path check only. -/
theorem Run_dispatches_to_the_set_check_witness :
    ∃ r, Assertable.Run Examples.decls
        (Examples.asserter (some
          { State := some (Examples.pod "r" []), StateCheck := none,
            PathCheck := some { Path := "status.phase", Operator := "Equals",
                                Value := "Running" } })) = some r ∧
      r.invoked.length = 1 ∧ r.err = none ∧ r.status.Message = "path" := by
  obtain ⟨r, hr, hinv, hok, -⟩ := (Run_dispatches_to_the_set_check Examples.decls
    (Examples.asserter (some
      { State := some (Examples.pod "r" []), StateCheck := none,
        PathCheck := some { Path := "status.phase", Operator := "Equals",
                            Value := "Running" } }))
    { State := some (Examples.pod "r" []), StateCheck := none,
      PathCheck := some { Path := "status.phase", Operator := "Equals", Value := "Running" } }
    (Examples.pod "r" []) (by decide) (by decide) rfl rfl rfl).1
    { Path := "status.phase", Operator := "Equals", Value := "Running" } rfl rfl
  have h := hok _ rfl
  exact ⟨r, hr, (congrArg List.length hinv).trans rfl, h.1,
    (congrArg AssertStatus.Message h.2).trans rfl⟩

/-- Claim C13, amended. `Assertable.Run` leaves the `State` and the `PathCheck`
of the caller's `Assert` spec as they were, and the `StateCheck` too, except
when the name is non-empty, the state is set and neither check is set: `init`
then writes the default `StateCheck` with operator `Equals` into the spec.
`Labeling.Run` leaves the `Label` spec (`ApplyLabels`, `IncludeByNames`,
`AutoUnset`, `State`) as it was, whatever the retry policy. -/
theorem Run_leaves_specs_but_default_check (d : JobDecls) (a : Assertable) (res : RunResult)
    (r : Retryable) (l : Labeling) (c : Cluster)
    (hres : Assertable.Run d a = some res) :
    (a.Assert = none → res.a.Assert = none) ∧
      (∀ asrt, a.Assert = some asrt →
        ∃ asrt1, res.a.Assert = some asrt1 ∧ asrt1.State = asrt.State ∧
          asrt1.PathCheck = asrt.PathCheck ∧
          asrt1.StateCheck =
            if a.Name ≠ "" ∧ asrt.State.isSome ∧ asrt.PathCheck.isNone ∧
                asrt.StateCheck.isNone
            then some ⟨StateCheckOperatorEquals⟩
            else asrt.StateCheck) ∧
      (l.Run r.Waitf c).1.1.Label = l.Label :=
  ⟨(Run_Assert d a res hres).1, (Run_Assert d a res hres).2,
    Run_state r l c (fun s => s.1.Label = l.Label) rfl
      (fun s hs => (labelAllAttempt_spec s).trans hs)⟩

/-- Witness of C13: the asserter `check` over a spec with a state only, and the
labeler of `failedRun`. -/
theorem Run_leaves_specs_but_default_check_witness :
    ∃ res asrt1, Assertable.Run Examples.decls Examples.stateOnly = some res ∧
      res.a.Assert = some asrt1 ∧ asrt1.State = some (Examples.pod "r" []) ∧
      asrt1.PathCheck = none ∧ asrt1.StateCheck = some ⟨StateCheckOperatorEquals⟩ ∧
      (Examples.failedRun true).1.1.Label = (Examples.labeler [("a", "1")] [] false).Label := by
  have hsome : (Assertable.Run Examples.decls Examples.stateOnly).isSome = true := by decide
  obtain ⟨res, hres⟩ := Option.isSome_iff_exists.mp hsome
  have h := Run_leaves_specs_but_default_check Examples.decls Examples.stateOnly res
    { retries := 0, retryOnError := true } (Examples.labeler [("a", "1")] [] false)
    Examples.twoPods hres
  obtain ⟨asrt1, h1, h2, h3, h4⟩ := h.2.1
    { State := some (Examples.pod "r" []), StateCheck := none, PathCheck := none } rfl
  exact ⟨res, asrt1, hres, h1, h2, h3, h4.trans (if_pos ⟨by decide, rfl, rfl, rfl⟩), h.2.2⟩

/-- Counterexample to C13 as stated: the spec of `stateOnly` has no
`StateCheck` before `Run` and the `StateCheck` with operator `Equals` after it. -/
theorem Run_installs_default_state_check :
    (Examples.stateOnly.Assert.bind (fun asrt => asrt.StateCheck)).isNone = true ∧
      (((Assertable.Run Examples.decls Examples.stateOnly).bind
          (fun res => res.a.Assert)).bind (fun asrt => asrt.StateCheck)).map
        (fun sc => sc.Operator) = some "Equals" := by
  decide

/-- Claim C14. A fresh labeler with a non-empty `ApplyLabels` whose first
attempt obtains the client, lists `listed` and labels or unsets every listed
resource without an error: whatever the retry policy, `Run` returns no error
and a result with phase Passed whose verbose summary reports as Found the
length of `listed`, as Labeled the number of listed resources that are included
and as UnLabeled the number of listed resources that are not included and on
which `unset` wrote (it passed both guards), which is 0 when `AutoUnset` is
false. -/
theorem Run_reports_counts_of_clean_attempt (r : Retryable) (config : LabelingConfig)
    (c c1 c2 : Cluster) (client : ResourceClient) (listed : List Unstructured)
    (hne : config.Label.ApplyLabels.len ≠ 0)
    (hclient : c.GetClientForAPIVersionAndKind config.Label.State.GetAPIVersion
      config.Label.State.GetKind = (c1, Except.ok client))
    (hlist : client.List config.Label.State.GetNamespace config.Label.State.GetLabels c1 =
      (c2, Except.ok listed))
    (hitems : (labelItems { NewLabeler config with totalFoundCount := listed.length }
      client listed c2).2.2 = none) :
    ∃ res, ((NewLabeler config).Run r.Waitf c).2 = (some res, none) ∧
      res.Phase = LabelStatusPassed ∧
      res.Verbose =
        "Resource labeling: Found " ++ toString listed.length ++
          ": Labeled " ++ toString (listed.countP (fun o =>
            decide (config.Label.IncludeByNames = [] ∨ o.name ∈ config.Label.IncludeByNames))) ++
          ": UnLabeled " ++ toString (listed.countP (fun o =>
            !decide (config.Label.IncludeByNames = [] ∨ o.name ∈ config.Label.IncludeByNames) &&
              config.Label.AutoUnset && unsetGuard config.Label.ApplyLabels o.labels)) ∧
      (config.Label.AutoUnset = false →
        listed.countP (fun o =>
          !decide (config.Label.IncludeByNames = [] ∨ o.name ∈ config.Label.IncludeByNames) &&
            config.Label.AutoUnset && unsetGuard config.Label.ApplyLabels o.labels) = 0) := by
  have hatt := labelAllAttempt_clean (NewLabeler config) c c1 c2 client listed hclient hlist
    hitems
  have hcount := labelItems_counts client listed
    { NewLabeler config with totalFoundCount := listed.length } c2 hitems
  have hloop := fun msg => loop_first_done r labelAllAttempt msg r.retries
    (NewLabeler config, c) (by rw [hatt])
  have hne' : ¬ (NewLabeler config).Label.ApplyLabels.len = 0 := hne
  have hrun : ((NewLabeler config).Run r.Waitf c).2 =
      (some { Phase := LabelStatusPassed,
              Message := "Label resource " ++ config.Label.State.GetNamespace ++ " " ++
                config.Label.State.GetName ++ ": GVK " ++ config.Label.State.GroupVersionKind,
              Verbose := (labelItems { NewLabeler config with totalFoundCount := listed.length }
                client listed c2).1.verboseMessage }, none) := by
    unfold Run
    rw [if_neg hne']
    unfold labelAll Retryable.Waitf
    simp only [hloop, hatt]
    rfl
  refine ⟨_, hrun, rfl, ?_, ?_⟩
  · show (labelItems { NewLabeler config with totalFoundCount := listed.length }
        client listed c2).1.verboseMessage = _
    rw [hcount]
    simp [verboseMessage, NewLabeler]
  · intro hau
    simp [hau]


/-- Witness of C14: `ApplyLabels = {a: "1"}`, `IncludeByNames = [p1]`,
`AutoUnset` on; `p1` has no label and is labeled, `p2` carries `a=1` and is unset. -/
theorem Run_reports_counts_of_clean_attempt_witness :
    ∃ res, ((Examples.labeler [("a", "1")] ["p1"] true).Run
        (Retryable.Waitf { retries := 0, retryOnError := false })
        (Examples.cluster [Examples.pod "p1" [], Examples.pod "p2" [("a", "1")]] [])).2 =
          (some res, none) ∧
      res.Phase = "Passed" ∧
      res.Verbose = "Resource labeling: Found 2: Labeled 1: UnLabeled 1" := by
  obtain ⟨res, hres, hphase, hverbose, -⟩ := Run_reports_counts_of_clean_attempt
    { retries := 0, retryOnError := false }
    { Label := { State := Examples.pod "" [], ApplyLabels := LabelMap.ofList [("a", "1")],
                 IncludeByNames := ["p1"], AutoUnset := true } }
    (Examples.cluster [Examples.pod "p1" [], Examples.pod "p2" [("a", "1")]] [])
    ((Examples.cluster [Examples.pod "p1" [], Examples.pod "p2" [("a", "1")]] []).receive
      (StoreCall.getClient "v1" "Pod")).1
    (((Examples.cluster [Examples.pod "p1" [], Examples.pod "p2" [("a", "1")]] []).receive
      (StoreCall.getClient "v1" "Pod")).1.receive (StoreCall.list "v1" "Pod" "ns" [])).1
    Examples.client
    [Examples.pod "p1" [], Examples.pod "p2" [("a", "1")]]
    (by decide) rfl rfl rfl
  exact ⟨res, hres, hphase, hverbose.trans (by decide)⟩

/-- Counterexample to C16: the claim asserts that some valid candidate is
rejected by the count pre-filter of `unset`; there is none. No non-empty
`ApplyLabels` and label map holding every pair of it satisfy the pre-filter
condition `len(currentLbls) == 0 || len(currentLbls) < len(ApplyLabels)`. -/
theorem prefilter_rejects_no_candidate :
    ¬ ∃ A E : LabelMap, A.len ≠ 0 ∧
      (∀ k v, A.lookup k = some v → E.lookup k = some v) ∧
      (E.len = 0 ∨ E.len < A.len) := by
  rintro ⟨A, E, hne, h, hpre⟩
  have := len_le_of_present A E h
  omega

/-- Claim C16, amended. The label-count pre-filter of `unset` never rejects a
valid candidate: for every non-empty `ApplyLabels` and every resource whose
labels hold every key of `ApplyLabels` with the desired value, the pre-filter
condition is false, `unset` issues its `Update`, and no key of `ApplyLabels`
is left on the document. -/
theorem unset_prefilter_passes_candidates (l : Labeling) (client : ResourceClient)
    (obj : Unstructured) (c : Cluster)
    (hne : l.Label.ApplyLabels.len ≠ 0)
    (h : ∀ k v, l.Label.ApplyLabels.lookup k = some v → obj.labels.lookup k = some v) :
    ¬ (obj.GetLabels.len = 0 ∨ obj.GetLabels.len < l.Label.ApplyLabels.len) ∧
      (l.unset client obj c).cluster.calls =
        c.calls ++ [StoreCall.update obj.nspace (l.unset client obj c).obj] ∧
      (∀ k, k ∈ l.Label.ApplyLabels → (l.unset client obj c).obj.labels.lookup k = none) := by
  have hle := len_le_of_present _ _ h
  have hE : obj.labels.len ≠ 0 := by omega
  refine ⟨by simp only [Unstructured.GetLabels]; omega, ?_, ?_⟩
  · rw [unset_of_present l client obj c h hE]
    simp only [Update_calls]
  · intro k hk
    rw [unset_of_present l client obj c h hE]
    simp only
    rw [lookup_unset_obj, if_pos hk]

/-- Witness of C16: `ApplyLabels = {a: "1"}` and a pod labeled `{a: "1"}`. -/
theorem unset_prefilter_passes_candidates_witness :
    (Examples.labeler [("a", "1")] ["other"] true).Label.ApplyLabels.len ≠ 0 ∧
      ((Examples.labeler [("a", "1")] ["other"] true).unset Examples.client
        (Examples.pod "r" [("a", "1")])
        (Examples.cluster [Examples.pod "r" [("a", "1")]] [])).obj.labels.lookup "a" = none :=
  ⟨by decide,
    (unset_prefilter_passes_candidates (Examples.labeler [("a", "1")] ["other"] true)
      Examples.client (Examples.pod "r" [("a", "1")])
      (Examples.cluster [Examples.pod "r" [("a", "1")]] [])
      (by decide)
      (fun k v hkv => by
        obtain ⟨hk, hv⟩ := lookup_ofList_single hkv
        subst hk; subst hv
        decide)).2.2 "a" (by decide)⟩

/-- Claim C17, evaluated where the code departs from it. A fresh labeler of
`{a: "1"}` works on two pods. The first attempt finds 2, labels the first pod
and fails on the second. The attempt that follows from scratch finds 2 again
and labels both, while the labeled count, which is never reset, goes on from 1
to 3: after it `labeledCount + unLabeledCount` is 3 and `totalFoundCount` is 2,
and the run that retries once reports "Found 2: Labeled 3: UnLabeled 0". -/
theorem retried_attempt_counts_more_than_found :
    Examples.firstAttempt.2.2.isSome = true ∧
      Examples.firstAttempt.1.1.totalFoundCount = 2 ∧
      Examples.firstAttempt.1.1.labeledCount = 1 ∧
      Examples.secondAttempt.2.1 = true ∧
      Examples.secondAttempt.1.1.totalFoundCount = 2 ∧
      Examples.secondAttempt.1.1.labeledCount = 3 ∧
      Examples.secondAttempt.1.1.unLabeledCount = 0 ∧
      Examples.retriedRun.2.1.map (fun res => res.Verbose) =
        some "Resource labeling: Found 2: Labeled 3: UnLabeled 0" ∧
      ¬ (Examples.secondAttempt.1.1.labeledCount + Examples.secondAttempt.1.1.unLabeledCount ≤
          Examples.secondAttempt.1.1.totalFoundCount) := by
  decide

/-- Claim C18. For a non-empty `ApplyLabels` and a resource whose labels share
no key with it, `label` followed by `unset` leaves the document with exactly
the labels it had (the same value under every key, the same pairs up to order)
and otherwise unchanged; the two calls issue one `Update` each, and when the
second is accepted that document is what the store holds. For some resource
that shares a key with `ApplyLabels` under another value the original value is
lost: with labels `{a: "9"}` and `ApplyLabels = {a: "1"}`, both writes
succeeding, the round trip ends without the key `a`. -/
theorem label_then_unset_round_trip (l : Labeling) (client : ResourceClient)
    (obj : Unstructured) (c : Cluster)
    (hne : l.Label.ApplyLabels.len ≠ 0)
    (hdisj : ∀ k, k ∈ l.Label.ApplyLabels → k ∉ obj.labels) :
    let s1 := l.label client obj c
    let s2 := s1.l.unset client s1.obj s1.cluster
    ((∀ k, s2.obj.labels.lookup k = obj.labels.lookup k) ∧
        s2.obj.labels.entries.Perm obj.labels.entries ∧
        s2.obj = obj.SetLabels s2.obj.labels ∧
        s2.cluster.calls = c.calls ++
          [StoreCall.update obj.nspace s1.obj, StoreCall.update obj.nspace s2.obj] ∧
        (s2.err = none → s2.obj ∈ s2.cluster.items)) ∧
      ((Examples.labeler [("a", "1")] [] true).Label.ApplyLabels.lookup "a" = some "1" ∧
        (Examples.pod "r" [("a", "9")]).labels.lookup "a" = some "9" ∧
        Examples.overwriteLabel.err.isNone = true ∧
        Examples.overwriteUnset.err.isNone = true ∧
        Examples.overwriteUnset.obj.labels.lookup "a" = none ∧
        Examples.storedLabels Examples.overwriteUnset.cluster = [[]]) := by
  intro s1 s2
  refine ⟨?_, by decide⟩
  have hspec : s1.l.Label = l.Label := label_spec l client obj c
  have hpres : ∀ k v, s1.l.Label.ApplyLabels.lookup k = some v →
      s1.obj.labels.lookup k = some v := by
    intro k v hkv
    rw [hspec] at hkv
    show (l.label client obj c).obj.labels.lookup k = some v
    rw [label_lookup, hkv]
  have hs1ne : s1.obj.labels.len ≠ 0 := by
    have := len_le_of_present _ _ hpres
    rw [hspec] at this
    omega
  have hs2 : s2 = _ := unset_of_present s1.l client s1.obj s1.cluster hpres hs1ne
  have hlook : ∀ k, s2.obj.labels.lookup k = obj.labels.lookup k := by
    intro k
    rw [hs2]
    simp only
    rw [lookup_unset_obj, hspec]
    by_cases hk : k ∈ l.Label.ApplyLabels
    · rw [if_pos hk]
      exact (AList.lookup_eq_none.mpr (hdisj k hk)).symm
    · rw [if_neg hk]
      show (l.label client obj c).obj.labels.lookup k = _
      rw [label_lookup, AList.lookup_eq_none.mpr hk]
  have hobj1 : s1.obj = obj.SetLabels s1.obj.labels := by
    show (l.label client obj c).obj = _
    rw [label_obj]; rfl
  refine ⟨hlook, ?_, ?_, ?_, ?_⟩
  · refine List.lookup_ext s2.obj.labels.nodupKeys obj.labels.nodupKeys ?_
    intro x y
    have := hlook x
    simp only [AList.lookup] at this
    rw [this]
  · rw [hs2]
    simp only
    rw [hobj1]; rfl
  · have hc1 : s1.cluster.calls = c.calls ++ [StoreCall.update obj.nspace s1.obj] :=
      label_calls l client obj c
    have hns : s1.obj.nspace = obj.nspace := label_nspace l client obj c
    rw [hs2]
    simp only [Update_calls, hc1, hns, List.append_assoc, List.singleton_append]
  · intro herr
    rw [hs2] at herr ⊢
    exact Update_stored _ _ _ _ herr

/-- Witness of C18: labels `{b: "2"}` and `ApplyLabels = {a: "1"}`. -/
theorem label_then_unset_round_trip_witness :
    ((Examples.labeler [("a", "1")] [] true).label Examples.client
          (Examples.pod "r" [("b", "2")])
          (Examples.cluster [Examples.pod "r" [("b", "2")]] [])).obj.labels.lookup "a"
        = some "1" ∧
      ∀ k, (((Examples.labeler [("a", "1")] [] true).label Examples.client
          (Examples.pod "r" [("b", "2")])
          (Examples.cluster [Examples.pod "r" [("b", "2")]] [])).l.unset Examples.client
        ((Examples.labeler [("a", "1")] [] true).label Examples.client
          (Examples.pod "r" [("b", "2")])
          (Examples.cluster [Examples.pod "r" [("b", "2")]] [])).obj
        ((Examples.labeler [("a", "1")] [] true).label Examples.client
          (Examples.pod "r" [("b", "2")])
          (Examples.cluster [Examples.pod "r" [("b", "2")]] [])).cluster).obj.labels.lookup k =
        (Examples.pod "r" [("b", "2")]).labels.lookup k :=
  ⟨by decide,
    (label_then_unset_round_trip (Examples.labeler [("a", "1")] [] true) Examples.client
      (Examples.pod "r" [("b", "2")]) (Examples.cluster [Examples.pod "r" [("b", "2")]] [])
      (by decide)
      (fun k hk => by
        have hA : (Examples.labeler [("a", "1")] [] true).Label.ApplyLabels =
            AList.insert "a" "1" ∅ := rfl
        rw [hA, AList.mem_insert] at hk
        rcases hk with hk | hk
        · subst hk; decide
        · exact absurd hk (AList.not_mem_empty k))).1.1⟩

end DOperators
